import Mathlib

/-!
Shallow embedding of the credential & bucket reconciliation engine of the
object-storage integrators (S3 / GCS backends): bucket-name validation,
secret decoding with retry, proxy bypass, and the provider reconcile pass.
All definitions are translated from the repository sources; definitions
whose doc comment says "Spec formulation" restate the specification's words
for refinement comparisons.
-/

/-- Does `cs` start with `p` (list-of-chars prefix test)? -/
def startsWithList : List Char → List Char → Bool
  | _, [] => true
  | [], _ :: _ => false
  | c :: cs, d :: ds => decide (c = d) && startsWithList cs ds

/-- Does `cs` end with `suffixChars`? -/
def endsWithChars (cs suffixChars : List Char) : Bool :=
  startsWithList cs.reverse suffixChars.reverse

/-- Does `sub` occur as a contiguous sublist of `l`? -/
def hasSubList : List Char → List Char → Bool
  | [], sub => sub.isEmpty
  | c :: cs, sub => startsWithList (c :: cs) sub || hasSubList cs sub

/-- Python `sub in s` (substring containment). -/
def containsSubstr (s sub : String) : Bool :=
  hasSubList s.toList sub.toList

/-- Python `str.split(sep)` for a one-character separator: `"".split(",") = [""]`. -/
def splitOnChar (sep : Char) : List Char → List (List Char)
  | [] => [[]]
  | c :: cs =>
    let r := splitOnChar sep cs
    if c = sep then [] :: r
    else
      match r with
      | h :: t => (c :: h) :: t
      | [] => [[c]]

/-- Whitespace characters stripped by Python `str.strip()`. -/
def isSpaceChar (c : Char) : Bool :=
  decide (c = ' ') || decide (c = '\t') || decide (c = '\n') || decide (c = '\r') ||
  decide (c = '\x0b') || decide (c = '\x0c')

/-- Python `str.strip()`. -/
def trimChars (cs : List Char) : List Char :=
  ((cs.dropWhile isSpaceChar).reverse.dropWhile isSpaceChar).reverse

/-- Python `str.lower()` (ASCII-sufficient). -/
def toLowerChars (cs : List Char) : List Char :=
  cs.map Char.toLower

/-- Python `", ".join(f"'{x}'" for x in names)`. -/
def quoteJoin : List String → String
  | [] => ""
  | [n] => "\x27" ++ n ++ "\x27"
  | n :: rest => "\x27" ++ n ++ "\x27" ++ ", " ++ quoteJoin rest

/-- Remove one trailing newline, if present (Python `$` leniency helper). -/
def dropTrailingNewline (cs : List Char) : List Char :=
  if cs.getLast? = some '\n' then cs.dropLast else cs

/-- String-level version of `dropTrailingNewline`. -/
def stripTrailingNewline (s : String) : String :=
  ⟨dropTrailingNewline s.toList⟩

/-- Char class `[a-z0-9]`. -/
def isLowerAlnum (c : Char) : Bool :=
  (decide ('a' ≤ c) && decide (c ≤ 'z')) || (decide ('0' ≤ c) && decide (c ≤ '9'))

/-- Char class `[a-z0-9-]` (S3 bucket body characters). -/
def isBucketChar (c : Char) : Bool :=
  isLowerAlnum c || decide (c = '-')

/-- Char class `[a-z0-9.-]` (GCS bucket body characters, from `_BUCKET_RX`). -/
def gcsMiddleChar (c : Char) : Bool :=
  isLowerAlnum c || decide (c = '.') || decide (c = '-')

/-- The shape `^[a-z0-9][a-z0-9-]{1,61}[a-z0-9]$` of `BUCKET_REGEX`
(src/s3/src/core/domain.py): 3–63 chars, alnum first/last, body chars between. -/
def mainShape (cs : List Char) : Bool :=
  decide (3 ≤ cs.length) && decide (cs.length ≤ 63) &&
  isLowerAlnum (cs.headD ' ') && isLowerAlnum (cs.getLastD ' ') &&
  ((cs.drop 1).dropLast.all isBucketChar)

/-- The negative lookahead branch `^xn--` of `BUCKET_REGEX`. -/
def xnPrefix (cs : List Char) : Bool :=
  startsWithList cs ("xn--".toList)

/-- The negative lookahead branch `.+-s3alias$` of `BUCKET_REGEX`:
a nonempty newline-free run, then `-s3alias`, then the end of the string or
a final newline (Python `$` matches just before a trailing newline;
`.` does not match a newline). -/
def s3aliasLookahead (cs : List Char) : Bool :=
  (endsWithChars cs ("-s3alias".toList) && decide (9 ≤ cs.length) &&
    ((cs.take (cs.length - 8)).all (fun c => decide (c ≠ '\n'))))
  ||
  (endsWithChars cs ("-s3alias\n".toList) && decide (10 ≤ cs.length) &&
    ((cs.take (cs.length - 9)).all (fun c => decide (c ≠ '\n'))))

/-- `re.match(BUCKET_REGEX, s)` succeeds, for
`BUCKET_REGEX = (?!(^xn--|.+-s3alias$))^[a-z0-9][a-z0-9-]{1,61}[a-z0-9]$|^$`
(src/s3/src/core/domain.py line 42).  Python `$` also matches right before a
single trailing newline, and `^$` therefore also matches `"\n"`. -/
def bucketRegexAccept (s : String) : Bool :=
  let cs := s.toList
  (!(xnPrefix cs || s3aliasLookahead cs) &&
    (mainShape cs || (decide (cs.getLast? = some '\n') && mainShape cs.dropLast)))
  || decide (cs = []) || decide (cs = ['\n'])

/-- `_BUCKET_RX.fullmatch(s)` succeeds, for
`_BUCKET_RX = ^[a-z0-9](?:[a-z0-9.-]{1,61})[a-z0-9]$`
(src/gcs/src/core/charm_config.py line 45), as used by `GCSConfig._bucket_syntax`. -/
def gcsBucketAccept (s : String) : Bool :=
  let cs := s.toList
  decide (3 ≤ cs.length) && decide (cs.length ≤ 63) &&
  isLowerAlnum (cs.headD ' ') && isLowerAlnum (cs.getLastD ' ') &&
  ((cs.drop 1).dropLast.all gcsMiddleChar)

/-- Spec formulation: the claimed bucket grammar
`^[a-z0-9](?:[a-z0-9-]{1,61})[a-z0-9]$` together with "empty allowed" and the
S3 extras "not starting with `xn--`, not ending with `-s3alias`". -/
def specS3BucketAccept (s : String) : Bool :=
  let cs := s.toList
  decide (cs = []) ||
  (mainShape cs && !(startsWithList cs ("xn--".toList)) &&
    !(endsWithChars cs ("-s3alias".toList)))

example : bucketRegexAccept "abc" = true := by decide
example : bucketRegexAccept "ab" = false := by decide
example : bucketRegexAccept "xn--abc" = false := by decide
example : bucketRegexAccept "a-s3alias" = false := by decide
example : bucketRegexAccept "" = true := by decide
example : bucketRegexAccept "\n" = true := by decide
example : bucketRegexAccept "abcd\n" = true := by decide
example : gcsBucketAccept "a.b" = true := by decide
example : gcsBucketAccept "" = false := by decide
example : specS3BucketAccept "a.b" = false := by decide

/-- `StatusObject` from data_platform_helpers, restricted to the fields this
charm sets (`status`, `message`, `action`, `running`). -/
structure StatusObject where
  status : String := ""
  message : String := ""
  action : String := ""
  running : String := ""
deriving DecidableEq

/-- `BucketStatuses.bucket_unavailable` (src/s3/src/events/statuses.py). -/
def bucket_unavailable (bucket_names : List String) : StatusObject :=
  { status := "blocked",
    message := "Could not fetch or create bucket(s): " ++ quoteJoin bucket_names,
    action := "Make sure the bucket name and S3 credentials are valid." }

/-- `BucketStatuses.bucket_name_invalid` (src/s3/src/events/statuses.py). -/
def bucket_name_invalid (bucket_names : List String) : StatusObject :=
  { status := "blocked",
    message := "Invalid name for bucket(s): " ++ quoteJoin bucket_names,
    action := "Make sure the bucket name is valid." }

/-- `BucketStatuses.creating_bucket` (src/s3/src/events/statuses.py). -/
def creating_bucket (bucket_name : String) : StatusObject :=
  { status := "maintenance",
    message := "Creating bucket: \x27" ++ bucket_name ++ "\x27...",
    running := "blocking" }

/-- `CharmStatuses.ACTIVE_IDLE` (src/s3/src/events/statuses.py). -/
def ACTIVE_IDLE : StatusObject :=
  { status := "active", message := "" }

/-- The component name `self.name = "s3-provider"` under which
`S3ProviderEvents` records its statuses. -/
def providerComponent : String := "s3-provider"

/-- Connection-info / relation-data maps (Python `dict[str, str]`,
represented as insertion-ordered association lists). -/
abbrev ConnInfo := List (String × String)

/-- Python dict lookup on an association list (first binding wins). -/
def lookupKey (k : String) : ConnInfo → Option String
  | [] => none
  | (a, b) :: rest => if k = a then some b else lookupKey k rest

/-- Python `d.get(k, default)`. -/
def getD (m : ConnInfo) (k default : String) : String :=
  (lookupKey k m).getD default

/-- Replace the binding for `k` in place (helper for `setKey`). -/
def replaceEntry (k v : String) (p : String × String) : String × String :=
  if p.1 = k then (k, v) else p

/-- Python `d | {k: v}` restricted to one key: replace the value in place if
the key is present, otherwise append the new binding at the end. -/
def setKey (m : ConnInfo) (k v : String) : ConnInfo :=
  if (lookupKey k m).isSome then m.map (replaceEntry k v)
  else m ++ [(k, v)]

/-- The charm-visible state a reconcile pass reads and writes:
recorded statuses per scope (`self.state.statuses`), transient running
statuses per scope (`charm.status.set_running_status`), and the relation
payloads written through `update_relation_data` (as a log of writes). -/
structure ReconcileState where
  statApp : List (String × StatusObject) := []
  statUnit : List (String × StatusObject) := []
  runApp : List StatusObject := []
  runUnit : List StatusObject := []
  published : List (Nat × ConnInfo) := []
deriving DecidableEq

/-- `S3ProviderEvents._add_status` with `is_running_status=False`: add the
status under this component in both the app and unit scopes. -/
def addStatus (s : StatusObject) (st : ReconcileState) : ReconcileState :=
  { st with statApp := st.statApp ++ [(providerComponent, s)],
            statUnit := st.statUnit ++ [(providerComponent, s)] }

/-- `S3ProviderEvents._add_status` with `is_running_status=True`. -/
def addRunningStatus (s : StatusObject) (st : ReconcileState) : ReconcileState :=
  { st with runApp := st.runApp ++ [s], runUnit := st.runUnit ++ [s] }

/-- `S3ProviderEvents._clear_status`: drop every recorded status of this
component, in both scopes. -/
def clearStatus (st : ReconcileState) : ReconcileState :=
  { st with statApp := st.statApp.filter (fun p => p.1 ≠ providerComponent),
            statUnit := st.statUnit.filter (fun p => p.1 ≠ providerComponent) }

/-- `state.statuses.get(scope, component)` for this component: the recorded
statuses of `providerComponent`, in recording order. -/
def componentStatuses (l : List (String × StatusObject)) : List StatusObject :=
  (l.filter (fun p => p.1 = providerComponent)).map Prod.snd

/-- Oracle for the remote object store consulted by `S3Manager`:
the outcome of the initial `get_bucket`, whether `create_bucket` raises
`S3BucketError`, and the outcome of the re-check `get_bucket` after a
successful create. -/
structure S3Store where
  exists0 : String → String → Bool
  createOk : String → Bool
  existsAfterCreate : String → String → Bool

/-- `S3ProviderEvents.ensure_bucket` (src/s3/src/events/provider.py 78-91):
fetch; on miss set a running `creating_bucket` status, create, and re-check;
`S3BucketError` yields `False`. -/
def ensure_bucket (store : S3Store) (bucket_name path : String)
    (st : ReconcileState) : Bool × ReconcileState :=
  if store.exists0 bucket_name path then (true, st)
  else
    let st1 := addRunningStatus (creating_bucket bucket_name) st
    if store.createOk bucket_name then (store.existsAfterCreate bucket_name path, st1)
    else (false, st1)

/-- `config_path_value or relation_path_value or ""` (provider.py line 136). -/
def resolvePath (configPath rpath : String) : String :=
  if configPath ≠ "" then configPath else if rpath ≠ "" then rpath else ""

/-- `S3ProviderEvents._handle_status` (provider.py 156-164). -/
def handle_status (missing_buckets invalid_buckets : List String)
    (st : ReconcileState) : ReconcileState :=
  let st1 := if missing_buckets ≠ [] then addStatus (bucket_unavailable missing_buckets) st else st
  let st2 := if invalid_buckets ≠ [] then addStatus (bucket_name_invalid invalid_buckets) st1 else st1
  if missing_buckets = [] ∧ invalid_buckets = [] then addStatus ACTIVE_IDLE st2 else st2

/-- The `for relation_id, request in relation_bucket_requests.items()` loop of
`reconcile_buckets` (provider.py 131-152), threading the `missing_buckets` and
`invalid_buckets` accumulators and the charm state.  Requests are triples
`(relation_id, requested bucket, requested path)` in relation-data order. -/
def reconcileRelations (store : S3Store) (s3 : ConnInfo)
    (configBucket configPath : String) :
    List (Nat × String × String) → List String → List String → ReconcileState →
    List String × List String × ReconcileState
  | [], missing, invalid, st => (missing, invalid, st)
  | (rid, rbucket, rpath) :: rest, missing, invalid, st =>
    let resolvedPath := resolvePath configPath rpath
    let relationData := setKey s3 "path" resolvedPath
    if configBucket = "" ∧ rbucket ≠ "" then
      if bucketRegexAccept rbucket = false ∧ invalid.contains rbucket = false then
        reconcileRelations store s3 configBucket configPath rest
          missing (invalid ++ [rbucket]) st
      else
        let ens := ensure_bucket store rbucket resolvedPath st
        if ens.1 = false ∧ missing.contains rbucket = false then
          reconcileRelations store s3 configBucket configPath rest
            (missing ++ [rbucket]) invalid ens.2
        else
          let relationData2 := setKey relationData "bucket" rbucket
          let st2 := { ens.2 with published := ens.2.published ++ [(rid, relationData2)] }
          reconcileRelations store s3 configBucket configPath rest missing invalid st2
    else
      let st1 := { st with published := st.published ++ [(rid, relationData)] }
      reconcileRelations store s3 configBucket configPath rest missing invalid st1

/-- `S3ProviderEvents.reconcile_buckets` (provider.py 108-154).
`isLeader` is `charm.unit.is_leader()`; `s3opt` is `self.state.s3` (`none`
when config/credentials do not resolve; the empty dict is also falsy);
`requests` is `get_requested_relation_buckets()` in relation order. -/
def reconcile_buckets (isLeader : Bool) (s3opt : Option ConnInfo)
    (store : S3Store) (requests : List (Nat × String × String))
    (st : ReconcileState) : ReconcileState :=
  if isLeader = false then st
  else
    match s3opt with
    | none => st
    | some m =>
      if m = ([] : ConnInfo) then st
      else
        let st0 := clearStatus st
        let configBucket := getD m "bucket" ""
        let configPath := getD m "path" ""
        let gate :=
          if configBucket ≠ "" then ensure_bucket store configBucket configPath st0
          else (true, st0)
        if gate.1 = false then handle_status [configBucket] [] gate.2
        else
          let res := reconcileRelations store m configBucket configPath requests [] [] gate.2
          handle_status res.1 res.2.1 res.2.2

/-- Outcome of `model.get_secret(id=secret_id).get_content(refresh=True)` as
observed by the `try` block of `decode_secret_key`: either the content map, or
the exception class raised (ops `SecretNotFoundError`, `ValueError`,
`ModelError` with its message, or any other exception). -/
inductive FetchOutcome where
  | ok (content : ConnInfo)
  | secretNotFound
  | valueError
  | modelError (msg : String)
  | otherError
deriving DecidableEq

/-- The typed error taxonomy of src/s3/src/utils/secrets.py and
src/gcs/src/utils/secrets.py, with the `secret_id` (and for `fieldMissing`
the `missing_fields`) each exception carries. -/
inductive SecretError where
  | doesNotExist (secret_id : String)
  | fieldMissing (secret_id : String) (missing_fields : List String)
  | notGranted (secret_id : String)
  | decodeError (secret_id : String)
deriving DecidableEq

/-- `decode_secret_key` (src/s3/src/utils/secrets.py 58-105): require
non-empty `access-key` and `secret-key`, classify every exception into the
taxonomy (a `ModelError` mentioning "permission denied" is `notGranted`,
any other unanticipated exception is `decodeError`). -/
def decode_secret_key (secret_id : String) (o : FetchOutcome) :
    Except SecretError (String × String) :=
  match o with
  | .ok content =>
    let missing_fields :=
      (if getD content "access-key" "" = "" then ["access-key"] else []) ++
      (if getD content "secret-key" "" = "" then ["secret-key"] else [])
    if missing_fields ≠ [] then .error (.fieldMissing secret_id missing_fields)
    else .ok (getD content "access-key" "", getD content "secret-key" "")
  | .secretNotFound => .error (.doesNotExist secret_id)
  | .valueError => .error (.doesNotExist secret_id)
  | .modelError msg =>
    if containsSubstr msg "permission denied" then .error (.notGranted secret_id)
    else .error (.decodeError secret_id)
  | .otherError => .error (.decodeError secret_id)

/-- `decode_secret_key` (src/gcs/src/utils/secrets.py 63-107): same
classification, but only `secret-key` is required and returned. -/
def gcs_decode_secret_key (secret_id : String) (o : FetchOutcome) :
    Except SecretError String :=
  match o with
  | .ok content =>
    let missing_fields :=
      if getD content "secret-key" "" = "" then ["secret-key"] else []
    if missing_fields ≠ [] then .error (.fieldMissing secret_id missing_fields)
    else .ok (getD content "secret-key" "")
  | .secretNotFound => .error (.doesNotExist secret_id)
  | .valueError => .error (.doesNotExist secret_id)
  | .modelError msg =>
    if containsSubstr msg "permission denied" then .error (.notGranted secret_id)
    else .error (.decodeError secret_id)
  | .otherError => .error (.decodeError secret_id)

/-- `retry_if_exception_type(SecretNotGrantedError)`. -/
def isNotGranted : SecretError → Bool
  | .notGranted _ => true
  | _ => false

/-- The tenacity loop of
`@retry(stop=stop_after_attempt(n), wait=wait_fixed(wait),
retry=retry_if_exception_type(SecretNotGrantedError), reraise=True)`:
run attempt `attempt` with at most `remaining` attempts in total left;
on a `SecretNotGrantedError` with attempts remaining, sleep `wait` seconds
and try again, otherwise re-raise.  Returns the final result, the index of
the last attempt made, and the list of sleeps performed. -/
def runRetry (wait : Nat) (f : Nat → Except SecretError α) (attempt : Nat) :
    Nat → Except SecretError α × Nat × List Nat
  | 0 => (f attempt, attempt, [])
  | remaining + 1 =>
    match f attempt with
    | .ok a => (.ok a, attempt, [])
    | .error e =>
      if isNotGranted e = true ∧ remaining ≠ 0 then
        let r := runRetry wait f (attempt + 1) remaining
        (r.1, r.2.1, wait :: r.2.2)
      else (.error e, attempt, [])

/-- `decode_secret_key_with_retry` (src/s3/src/utils/secrets.py 47-55):
3 attempts, fixed 5-second wait, retrying only `SecretNotGrantedError`.
`fetch i` is the secret-store response seen by attempt `i`. -/
def decode_secret_key_with_retry (secret_id : String)
    (fetch : Nat → FetchOutcome) :
    Except SecretError (String × String) × Nat × List Nat :=
  runRetry 5 (fun i => decode_secret_key secret_id (fetch i)) 1 3

/-- `decode_secret_key_with_retry` (src/gcs/src/utils/secrets.py 43-51). -/
def gcs_decode_secret_key_with_retry (secret_id : String)
    (fetch : Nat → FetchOutcome) :
    Except SecretError String × Nat × List Nat :=
  runRetry 5 (fun i => gcs_decode_secret_key secret_id (fetch i)) 1 3

/-- Spec formulation: "the list of missing required fields" — the
backend-specific required field list filtered down to the fields whose value
is absent or empty in the secret content. -/
def specMissingFields (required : List String) (content : ConnInfo) : List String :=
  required.filter (fun f => getD content f "" = "")

/-- `no_proxy_list` entries as computed by `S3Manager.skip_proxy`
(src/s3/src/managers/s3.py 61-63): split on commas, keep entries that are
non-blank after stripping, stripped and lower-cased. -/
def noProxyEntries (no_proxy_list : String) : List (List Char) :=
  (splitOnChar ',' no_proxy_list.toList).filterMap fun e =>
    let t := trimChars e
    if t = [] then none else some (toLowerChars t)

/-- `S3Manager.skip_proxy` (src/s3/src/managers/s3.py 52-81).
`ipInNet host entry` abstracts
`ipaddress.ip_address(host) in ipaddress.ip_network(entry, strict=False)`:
`none` when that raises (malformed host or entry, which the code skips),
otherwise the membership result.  `hostOpt` is `urlparse(endpoint).hostname`
(`none` when there is no parseable hostname; the empty hostname is also
falsy in Python). -/
def skip_proxy (ipInNet : List Char → List Char → Option Bool)
    (hostOpt : Option (List Char)) (no_proxy_list : String) : Bool :=
  if no_proxy_list.toList = [] then false
  else
    match hostOpt with
    | none => false
    | some host =>
      if host = [] then false
      else
        (noProxyEntries no_proxy_list).any fun entry =>
          decide (host = entry) ||
          (startsWithList entry ['.'] && endsWithChars host entry) ||
          endsWithChars host ('.' :: entry) ||
          (ipInNet host entry == some true)

lemma ensure_statApp (store : S3Store) (b p : String) (st : ReconcileState) :
    (ensure_bucket store b p st).2.statApp = st.statApp := by
  simp only [ensure_bucket, addRunningStatus]
  split <;> [rfl; (split <;> rfl)]

lemma ensure_statUnit (store : S3Store) (b p : String) (st : ReconcileState) :
    (ensure_bucket store b p st).2.statUnit = st.statUnit := by
  simp only [ensure_bucket, addRunningStatus]
  split <;> [rfl; (split <;> rfl)]

lemma ensure_published (store : S3Store) (b p : String) (st : ReconcileState) :
    (ensure_bucket store b p st).2.published = st.published := by
  simp only [ensure_bucket, addRunningStatus]
  split <;> [rfl; (split <;> rfl)]

lemma ensure_fst_indep (store : S3Store) (b p : String) (st st' : ReconcileState) :
    (ensure_bucket store b p st).1 = (ensure_bucket store b p st').1 := by
  simp only [ensure_bucket]
  split <;> [rfl; (split <;> rfl)]

lemma ensure_fst_true (store : S3Store) (b p : String) (st : ReconcileState)
    (h : store.exists0 b p = true ∨ (store.createOk b = true ∧ store.existsAfterCreate b p = true)) :
    (ensure_bucket store b p st).1 = true := by
  rcases h with h | ⟨h1, h2⟩
  · simp [ensure_bucket, h]
  · by_cases h0 : store.exists0 b p = true
    · simp [ensure_bucket, h0]
    · simp [ensure_bucket, h0, h1, h2]

lemma ensure_fst_false (store : S3Store) (b p : String) (st : ReconcileState)
    (h0 : store.exists0 b p = false)
    (h : store.createOk b = false ∨ store.existsAfterCreate b p = false) :
    (ensure_bucket store b p st).1 = false := by
  rcases h with h | h <;> simp [ensure_bucket, h0, h]

lemma loop_statApp (store : S3Store) (m : ConnInfo) (cb cp : String) :
    ∀ (reqs : List (Nat × String × String)) (missing invalid : List String)
      (st : ReconcileState),
    (reconcileRelations store m cb cp reqs missing invalid st).2.2.statApp = st.statApp := by
  intro reqs
  induction reqs with
  | nil => intro missing invalid st; rfl
  | cons head rest ih =>
    intro missing invalid st
    obtain ⟨rid, rbucket, rpath⟩ := head
    simp only [reconcileRelations]
    split
    · split
      · exact ih ..
      · split
        · rw [ih]; exact ensure_statApp ..
        · rw [ih]; exact ensure_statApp ..
    · exact ih ..

lemma loop_statUnit (store : S3Store) (m : ConnInfo) (cb cp : String) :
    ∀ (reqs : List (Nat × String × String)) (missing invalid : List String)
      (st : ReconcileState),
    (reconcileRelations store m cb cp reqs missing invalid st).2.2.statUnit = st.statUnit := by
  intro reqs
  induction reqs with
  | nil => intro missing invalid st; rfl
  | cons head rest ih =>
    intro missing invalid st
    obtain ⟨rid, rbucket, rpath⟩ := head
    simp only [reconcileRelations]
    split
    · split
      · exact ih ..
      · split
        · rw [ih]; exact ensure_statUnit ..
        · rw [ih]; exact ensure_statUnit ..
    · exact ih ..

lemma loop_published_extend (store : S3Store) (m : ConnInfo) (cb cp : String) :
    ∀ (reqs : List (Nat × String × String)) (missing invalid : List String)
      (st : ReconcileState),
    ∃ tail, (reconcileRelations store m cb cp reqs missing invalid st).2.2.published =
      st.published ++ tail := by
  intro reqs
  induction reqs with
  | nil => intro missing invalid st; exact ⟨[], by simp [reconcileRelations]⟩
  | cons head rest ih =>
    intro missing invalid st
    obtain ⟨rid, rbucket, rpath⟩ := head
    have step : ∀ (mi iv : List String) (st' : ReconcileState) (l : List (Nat × ConnInfo)),
        st'.published = st.published ++ l →
        ∃ tail, (reconcileRelations store m cb cp rest mi iv st').2.2.published =
          st.published ++ tail := by
      intro mi iv st' l hl
      obtain ⟨t, ht⟩ := ih mi iv st'
      exact ⟨l ++ t, by rw [ht, hl, List.append_assoc]⟩
    simp only [reconcileRelations]
    split
    · split
      · exact step _ _ _ [] (by simp)
      · split
        · exact step _ _ _ [] (by rw [ensure_published]; simp)
        · exact step _ _ _
            [(rid, setKey (setKey m "path" (resolvePath cp rpath)) "bucket" rbucket)]
            (by simp [ensure_published])
    · exact step _ _ _ [(rid, setKey m "path" (resolvePath cp rpath))] (by simp)

lemma loop_mi_indep (store : S3Store) (m : ConnInfo) (cb cp : String) :
    ∀ (reqs : List (Nat × String × String)) (missing invalid : List String)
      (st st' : ReconcileState),
    (reconcileRelations store m cb cp reqs missing invalid st).1 =
      (reconcileRelations store m cb cp reqs missing invalid st').1 ∧
    (reconcileRelations store m cb cp reqs missing invalid st).2.1 =
      (reconcileRelations store m cb cp reqs missing invalid st').2.1 := by
  intro reqs
  induction reqs with
  | nil => intro missing invalid st st'; exact ⟨rfl, rfl⟩
  | cons head rest ih =>
    intro missing invalid st st'
    obtain ⟨rid, rbucket, rpath⟩ := head
    simp only [reconcileRelations]
    rw [ensure_fst_indep store rbucket (resolvePath cp rpath) st' st]
    split
    · split
      · exact ih ..
      · split
        · exact ih ..
        · exact ih ..
    · exact ih ..

lemma comp_clear_statApp (st : ReconcileState) :
    componentStatuses (clearStatus st).statApp = [] := by
  simp only [componentStatuses, clearStatus, List.filter_filter]
  have h : (st.statApp.filter
      (fun a => decide (a.1 = providerComponent) && decide (a.1 ≠ providerComponent))) = [] := by
    rw [List.filter_eq_nil_iff]
    intro a _
    by_cases hp : a.1 = providerComponent <;> simp [hp]
  rw [h]
  rfl

lemma comp_clear_statUnit (st : ReconcileState) :
    componentStatuses (clearStatus st).statUnit = [] := by
  simp only [componentStatuses, clearStatus, List.filter_filter]
  have h : (st.statUnit.filter
      (fun a => decide (a.1 = providerComponent) && decide (a.1 ≠ providerComponent))) = [] := by
    rw [List.filter_eq_nil_iff]
    intro a _
    by_cases hp : a.1 = providerComponent <;> simp [hp]
  rw [h]
  rfl

lemma comp_nil : componentStatuses [] = [] := rfl

lemma comp_cons_pc (s : StatusObject) (l : List (String × StatusObject)) :
    componentStatuses ((providerComponent, s) :: l) = s :: componentStatuses l := by
  simp [componentStatuses]

lemma comp_append (l1 l2 : List (String × StatusObject)) :
    componentStatuses (l1 ++ l2) = componentStatuses l1 ++ componentStatuses l2 := by
  simp [componentStatuses]

lemma comp_single (s : StatusObject) :
    componentStatuses [(providerComponent, s)] = [s] := by
  simp [componentStatuses]

lemma addStatus_statApp (s : StatusObject) (st : ReconcileState) :
    (addStatus s st).statApp = st.statApp ++ [(providerComponent, s)] := rfl

lemma addStatus_statUnit (s : StatusObject) (st : ReconcileState) :
    (addStatus s st).statUnit = st.statUnit ++ [(providerComponent, s)] := rfl

lemma addStatus_published (s : StatusObject) (st : ReconcileState) :
    (addStatus s st).published = st.published := rfl

/-- The statuses `_handle_status` appends for given accumulator lists. -/
def handleAdditions (missing invalid : List String) : List StatusObject :=
  (if missing ≠ [] then [bucket_unavailable missing] else []) ++
  (if invalid ≠ [] then [bucket_name_invalid invalid] else []) ++
  (if missing = [] ∧ invalid = [] then [ACTIVE_IDLE] else [])

lemma handle_statApp (missing invalid : List String) (st : ReconcileState) :
    componentStatuses (handle_status missing invalid st).statApp =
      componentStatuses st.statApp ++ handleAdditions missing invalid := by
  by_cases hm : missing = [] <;> by_cases hi : invalid = [] <;>
    simp [handle_status, handleAdditions, hm, hi, addStatus_statApp, comp_append, comp_single,
      comp_cons_pc, comp_nil]

lemma handle_statUnit (missing invalid : List String) (st : ReconcileState) :
    componentStatuses (handle_status missing invalid st).statUnit =
      componentStatuses st.statUnit ++ handleAdditions missing invalid := by
  by_cases hm : missing = [] <;> by_cases hi : invalid = [] <;>
    simp [handle_status, handleAdditions, hm, hi, addStatus_statUnit, comp_append, comp_single,
      comp_cons_pc, comp_nil]

lemma handle_published (missing invalid : List String) (st : ReconcileState) :
    (handle_status missing invalid st).published = st.published := by
  by_cases hm : missing = [] <;> by_cases hi : invalid = [] <;>
    simp [handle_status, hm, hi, addStatus_published]

lemma clear_published (st : ReconcileState) :
    (clearStatus st).published = st.published := rfl

lemma replaceEntry_eq (k v a b : String) (h : a = k) :
    replaceEntry k v (a, b) = (k, v) := by
  simp [replaceEntry, h]

lemma replaceEntry_ne (k v a b : String) (h : ¬a = k) :
    replaceEntry k v (a, b) = (a, b) := by
  simp [replaceEntry, h]

lemma lookup_map_replace (m : ConnInfo) (k v : String) :
    lookupKey k (m.map (replaceEntry k v)) =
      if (lookupKey k m).isSome then some v else none := by
  induction m with
  | nil => rfl
  | cons head tail ih =>
    obtain ⟨a, b⟩ := head
    by_cases hak : a = k
    · subst hak
      rw [List.map_cons, replaceEntry_eq _ _ _ _ rfl]
      simp [lookupKey, ih]
    · rw [List.map_cons, replaceEntry_ne _ _ _ _ hak]
      simp [lookupKey, Ne.symm hak, ih]

lemma lookup_map_replace_ne (m : ConnInfo) (k v q : String) (hne : q ≠ k) :
    lookupKey q (m.map (replaceEntry k v)) = lookupKey q m := by
  induction m with
  | nil => rfl
  | cons head tail ih =>
    obtain ⟨a, b⟩ := head
    by_cases hak : a = k
    · subst hak
      rw [List.map_cons, replaceEntry_eq _ _ _ _ rfl]
      simp [lookupKey, hne, ih]
    · rw [List.map_cons, replaceEntry_ne _ _ _ _ hak]
      by_cases hqa : q = a
      · subst hqa
        simp [lookupKey]
      · simp [lookupKey, hqa, ih]

lemma lookup_append_single (m : ConnInfo) (k v q : String) :
    lookupKey q (m ++ [(k, v)]) =
      ((lookupKey q m).rec (if q = k then some v else none) some : Option String) := by
  induction m with
  | nil => simp [lookupKey]
  | cons head tail ih =>
    obtain ⟨a, b⟩ := head
    by_cases hqa : q = a
    · subst hqa
      simp [lookupKey]
    · simp [lookupKey, hqa, ih]

lemma setKey_lookup_self (m : ConnInfo) (k v : String) :
    lookupKey k (setKey m k v) = some v := by
  unfold setKey
  by_cases h : (lookupKey k m).isSome
  · rw [if_pos h, lookup_map_replace, if_pos h]
  · rw [if_neg h, lookup_append_single]
    rw [Option.not_isSome_iff_eq_none] at h
    rw [h]
    simp

lemma setKey_lookup_ne (m : ConnInfo) (k v q : String) (hne : q ≠ k) :
    lookupKey q (setKey m k v) = lookupKey q m := by
  unfold setKey
  split
  · exact lookup_map_replace_ne m k v q hne
  · rw [lookup_append_single]
    cases h : lookupKey q m
    · simp [hne]
    · simp

lemma loop_config (store : S3Store) (m : ConnInfo) (cb cp : String) (hcb : cb ≠ "") :
    ∀ (reqs : List (Nat × String × String)) (missing invalid : List String)
      (st : ReconcileState),
    reconcileRelations store m cb cp reqs missing invalid st =
      (missing, invalid,
        { st with published := st.published ++
            reqs.map (fun r => (r.1, setKey m "path" (resolvePath cp r.2.2))) }) := by
  intro reqs
  induction reqs with
  | nil =>
    intro missing invalid st
    simp [reconcileRelations]
  | cons head rest ih =>
    intro missing invalid st
    obtain ⟨rid, rbucket, rpath⟩ := head
    simp only [reconcileRelations]
    rw [if_neg (by simp [hcb])]
    rw [ih]
    simp [List.append_assoc]

lemma reconcile_unfold_config_fail (m : ConnInfo) (store : S3Store)
    (requests : List (Nat × String × String)) (st : ReconcileState)
    (hm : ¬m = []) (hcb : getD m "bucket" "" ≠ "")
    (hfail : (ensure_bucket store (getD m "bucket" "") (getD m "path" "")
      (clearStatus st)).1 = false) :
    reconcile_buckets true (some m) store requests st =
      handle_status [getD m "bucket" ""] []
        (ensure_bucket store (getD m "bucket" "") (getD m "path" "") (clearStatus st)).2 := by
  simp only [reconcile_buckets, Bool.true_eq_false, if_false, if_neg hm, if_pos hcb, hfail,
    if_pos rfl, if_true]

lemma reconcile_unfold_proceed (m : ConnInfo) (store : S3Store)
    (requests : List (Nat × String × String)) (st : ReconcileState)
    (hm : ¬m = [])
    (hok : (if getD m "bucket" "" ≠ "" then
        ensure_bucket store (getD m "bucket" "") (getD m "path" "") (clearStatus st)
      else (true, clearStatus st)).1 = true) :
    reconcile_buckets true (some m) store requests st =
      handle_status
        (reconcileRelations store m (getD m "bucket" "") (getD m "path" "") requests [] []
          (if getD m "bucket" "" ≠ "" then
            ensure_bucket store (getD m "bucket" "") (getD m "path" "") (clearStatus st)
          else (true, clearStatus st)).2).1
        (reconcileRelations store m (getD m "bucket" "") (getD m "path" "") requests [] []
          (if getD m "bucket" "" ≠ "" then
            ensure_bucket store (getD m "bucket" "") (getD m "path" "") (clearStatus st)
          else (true, clearStatus st)).2).2.1
        (reconcileRelations store m (getD m "bucket" "") (getD m "path" "") requests [] []
          (if getD m "bucket" "" ≠ "" then
            ensure_bucket store (getD m "bucket" "") (getD m "path" "") (clearStatus st)
          else (true, clearStatus st)).2).2.2 := by
  simp only [reconcile_buckets, Bool.true_eq_false, if_false, if_neg hm]
  rw [if_neg (by rw [hok]; simp)]

/-- C1: when `cfg.bucket` is set and ensuring it fails (the existence check
misses and either the create raises or the re-check still misses), the
reconcile pass publishes no payload to any consumer and records exactly one
`bucket_unavailable` status naming the config bucket, in each of the app and
unit scopes. -/
theorem claim_c1_config_bucket_failure_blocks_all
    (m : ConnInfo) (store : S3Store) (requests : List (Nat × String × String))
    (st : ReconcileState) (b : String)
    (hm : ¬m = []) (hb : getD m "bucket" "" = b) (hbne : b ≠ "")
    (h0 : store.exists0 b (getD m "path" "") = false)
    (h1 : store.createOk b = false ∨ store.existsAfterCreate b (getD m "path" "") = false) :
    (reconcile_buckets true (some m) store requests st).published = st.published ∧
    componentStatuses (reconcile_buckets true (some m) store requests st).statApp =
      [bucket_unavailable [b]] ∧
    componentStatuses (reconcile_buckets true (some m) store requests st).statUnit =
      [bucket_unavailable [b]] := by
  subst hb
  have hfail := ensure_fst_false store _ (getD m "path" "") (clearStatus st) h0 h1
  rw [reconcile_unfold_config_fail m store requests st hm hbne hfail]
  refine ⟨?_, ?_, ?_⟩
  · rw [handle_published, ensure_published, clear_published]
  · rw [handle_statApp, ensure_statApp, comp_clear_statApp]
    simp [handleAdditions]
  · rw [handle_statUnit, ensure_statUnit, comp_clear_statUnit]
    simp [handleAdditions]

/-- Witness for C1 at a concrete input. -/
theorem claim_c1_witness :
    (¬([("bucket", "mybucket"), ("access-key", "a"), ("secret-key", "s")] : ConnInfo) = [] ∧
     getD [("bucket", "mybucket"), ("access-key", "a"), ("secret-key", "s")] "bucket" "" =
       "mybucket" ∧
     ("mybucket" : String) ≠ "") ∧
    (reconcile_buckets true
        (some [("bucket", "mybucket"), ("access-key", "a"), ("secret-key", "s")])
        ⟨fun _ _ => false, fun _ => false, fun _ _ => false⟩
        [(1, "req", "p")] {}).published = ReconcileState.published {} ∧
    componentStatuses (reconcile_buckets true
        (some [("bucket", "mybucket"), ("access-key", "a"), ("secret-key", "s")])
        ⟨fun _ _ => false, fun _ => false, fun _ _ => false⟩
        [(1, "req", "p")] {}).statApp = [bucket_unavailable ["mybucket"]] ∧
    componentStatuses (reconcile_buckets true
        (some [("bucket", "mybucket"), ("access-key", "a"), ("secret-key", "s")])
        ⟨fun _ _ => false, fun _ => false, fun _ _ => false⟩
        [(1, "req", "p")] {}).statUnit = [bucket_unavailable ["mybucket"]] :=
  ⟨⟨by decide, by decide, by decide⟩,
   claim_c1_config_bucket_failure_blocks_all
     [("bucket", "mybucket"), ("access-key", "a"), ("secret-key", "s")]
     ⟨fun _ _ => false, fun _ => false, fun _ _ => false⟩
     [(1, "req", "p")] {} "mybucket"
     (by decide) (by decide) (by decide) rfl (Or.inl rfl)⟩

lemma resolvePath_eq (cp rp : String) :
    resolvePath cp rp = if cp ≠ "" then cp else rp := by
  unfold resolvePath
  by_cases hcp : cp = ""
  · by_cases hrp : rp = "" <;> simp [hcp, hrp]
  · simp [hcp]

lemma lookup_of_getD (m : ConnInfo) (k v : String) (h : getD m k "" = v) (hv : v ≠ "") :
    lookupKey k m = some v := by
  unfold getD at h
  cases hl : lookupKey k m with
  | none => rw [hl] at h; exact absurd h.symm hv
  | some x =>
    rw [hl] at h
    simp only [Option.getD_some] at h
    rw [h]

/-- C3: when `cfg.bucket` is set and successfully ensured, every consumer in
the pass is published a payload whose `bucket` is the config bucket
(whatever bucket the consumer requested), and whose `path` is `cfg.path`
when set, else that consumer's requested path. -/
theorem claim_c3_config_bucket_shared
    (m : ConnInfo) (store : S3Store) (requests : List (Nat × String × String))
    (st : ReconcileState) (b : String)
    (hm : ¬m = []) (hb : getD m "bucket" "" = b) (hbne : b ≠ "")
    (hok : store.exists0 b (getD m "path" "") = true ∨
      (store.createOk b = true ∧ store.existsAfterCreate b (getD m "path" "") = true)) :
    (reconcile_buckets true (some m) store requests st).published =
      st.published ++ requests.map
        (fun r => (r.1, setKey m "path" (resolvePath (getD m "path" "") r.2.2))) ∧
    ∀ r ∈ requests, ∃ pay,
      (r.1, pay) ∈ (reconcile_buckets true (some m) store requests st).published ∧
      lookupKey "bucket" pay = some b ∧
      getD pay "path" "" =
        (if getD m "path" "" ≠ "" then getD m "path" "" else r.2.2) := by
  subst hb
  have hgate : (if getD m "bucket" "" ≠ "" then
      ensure_bucket store (getD m "bucket" "") (getD m "path" "") (clearStatus st)
    else (true, clearStatus st)).1 = true := by
    rw [if_pos hbne]
    exact ensure_fst_true store _ _ _ hok
  rw [reconcile_unfold_proceed m store requests st hm hgate]
  rw [if_pos hbne]
  rw [loop_config store m _ _ hbne requests [] []]
  dsimp only
  constructor
  · rw [handle_published]
    dsimp only
    rw [ensure_published, clear_published]
  · intro r hr
    refine ⟨setKey m "path" (resolvePath (getD m "path" "") r.2.2), ?_, ?_, ?_⟩
    · rw [handle_published]
      dsimp only
      rw [ensure_published, clear_published]
      exact List.mem_append_right _ (List.mem_map_of_mem _ hr)
    · rw [setKey_lookup_ne m "path" _ "bucket" (by decide)]
      exact lookup_of_getD m "bucket" _ rfl hbne
    · unfold getD
      rw [setKey_lookup_self, resolvePath_eq]
      rfl

/-- Witness for C3 at a concrete input. -/
theorem claim_c3_witness :
    (¬([("bucket", "mybucket"), ("access-key", "a"), ("secret-key", "s")] : ConnInfo) = [] ∧
     getD [("bucket", "mybucket"), ("access-key", "a"), ("secret-key", "s")] "bucket" "" =
       "mybucket" ∧ ("mybucket" : String) ≠ "") ∧
    ((reconcile_buckets true
        (some [("bucket", "mybucket"), ("access-key", "a"), ("secret-key", "s")])
        ⟨fun _ _ => true, fun _ => true, fun _ _ => true⟩
        [(1, "req", "p1"), (2, "", "")] {}).published =
      ReconcileState.published {} ++
        [(1, "req", "p1"), (2, "", "")].map
          (fun r => (r.1, setKey [("bucket", "mybucket"), ("access-key", "a"),
            ("secret-key", "s")] "path"
            (resolvePath (getD [("bucket", "mybucket"), ("access-key", "a"),
              ("secret-key", "s")] "path" "") r.2.2))) ∧
     ∀ r ∈ [(1, "req", "p1"), (2, "", "")], ∃ pay,
       (r.1, pay) ∈ (reconcile_buckets true
          (some [("bucket", "mybucket"), ("access-key", "a"), ("secret-key", "s")])
          ⟨fun _ _ => true, fun _ => true, fun _ _ => true⟩
          [(1, "req", "p1"), (2, "", "")] {}).published ∧
       lookupKey "bucket" pay = some "mybucket" ∧
       getD pay "path" "" =
         (if getD [("bucket", "mybucket"), ("access-key", "a"), ("secret-key", "s")]
            "path" "" ≠ "" then
           getD [("bucket", "mybucket"), ("access-key", "a"), ("secret-key", "s")] "path" ""
         else r.2.2)) :=
  ⟨⟨by decide, by decide, by decide⟩,
   claim_c3_config_bucket_shared
     [("bucket", "mybucket"), ("access-key", "a"), ("secret-key", "s")]
     ⟨fun _ _ => true, fun _ => true, fun _ _ => true⟩
     [(1, "req", "p1"), (2, "", "")] {} "mybucket"
     (by decide) (by decide) (by decide) (Or.inl rfl)⟩

lemma comp_reconcile_indep_statApp (m : ConnInfo) (store : S3Store)
    (requests : List (Nat × String × String)) (st st' : ReconcileState) (hm : ¬m = []) :
    componentStatuses (reconcile_buckets true (some m) store requests st).statApp =
      componentStatuses (reconcile_buckets true (some m) store requests st').statApp := by
  by_cases hcb : getD m "bucket" "" = ""
  · have hgate : ∀ s : ReconcileState, (if getD m "bucket" "" ≠ "" then
        ensure_bucket store (getD m "bucket" "") (getD m "path" "") (clearStatus s)
      else (true, clearStatus s)).1 = true := by
      intro s
      rw [if_neg (by simp [hcb])]
    rw [reconcile_unfold_proceed m store requests st hm (hgate st),
      reconcile_unfold_proceed m store requests st' hm (hgate st')]
    rw [if_neg (by simp [hcb]), if_neg (by simp [hcb])]
    rw [handle_statApp, handle_statApp, loop_statApp, loop_statApp,
      comp_clear_statApp, comp_clear_statApp]
    obtain ⟨e1, e2⟩ := loop_mi_indep store m (getD m "bucket" "") (getD m "path" "")
      requests [] [] (clearStatus st) (clearStatus st')
    rw [e1, e2]
  · by_cases hfail : (ensure_bucket store (getD m "bucket" "") (getD m "path" "")
        (clearStatus st)).1 = false
    · have hfail' : (ensure_bucket store (getD m "bucket" "") (getD m "path" "")
          (clearStatus st')).1 = false := by
        rw [ensure_fst_indep store _ _ (clearStatus st') (clearStatus st)]
        exact hfail
      rw [reconcile_unfold_config_fail m store requests st hm hcb hfail,
        reconcile_unfold_config_fail m store requests st' hm hcb hfail']
      rw [handle_statApp, handle_statApp, ensure_statApp, ensure_statApp,
        comp_clear_statApp, comp_clear_statApp]
    · have htrue : (ensure_bucket store (getD m "bucket" "") (getD m "path" "")
          (clearStatus st)).1 = true := by
        cases h : (ensure_bucket store (getD m "bucket" "") (getD m "path" "")
          (clearStatus st)).1
        · exact absurd h hfail
        · rfl
      have htrue' : (ensure_bucket store (getD m "bucket" "") (getD m "path" "")
          (clearStatus st')).1 = true := by
        rw [ensure_fst_indep store _ _ (clearStatus st') (clearStatus st)]
        exact htrue
      have hgate : (if getD m "bucket" "" ≠ "" then
          ensure_bucket store (getD m "bucket" "") (getD m "path" "") (clearStatus st)
        else (true, clearStatus st)).1 = true := by
        rw [if_pos hcb]; exact htrue
      have hgate' : (if getD m "bucket" "" ≠ "" then
          ensure_bucket store (getD m "bucket" "") (getD m "path" "") (clearStatus st')
        else (true, clearStatus st')).1 = true := by
        rw [if_pos hcb]; exact htrue'
      rw [reconcile_unfold_proceed m store requests st hm hgate,
        reconcile_unfold_proceed m store requests st' hm hgate']
      rw [if_pos hcb, if_pos hcb]
      rw [handle_statApp, handle_statApp, loop_statApp, loop_statApp,
        ensure_statApp, ensure_statApp, comp_clear_statApp, comp_clear_statApp]
      obtain ⟨e1, e2⟩ := loop_mi_indep store m (getD m "bucket" "") (getD m "path" "")
        requests [] []
        (ensure_bucket store (getD m "bucket" "") (getD m "path" "") (clearStatus st)).2
        (ensure_bucket store (getD m "bucket" "") (getD m "path" "") (clearStatus st')).2
      rw [e1, e2]

lemma comp_reconcile_indep_statUnit (m : ConnInfo) (store : S3Store)
    (requests : List (Nat × String × String)) (st st' : ReconcileState) (hm : ¬m = []) :
    componentStatuses (reconcile_buckets true (some m) store requests st).statUnit =
      componentStatuses (reconcile_buckets true (some m) store requests st').statUnit := by
  by_cases hcb : getD m "bucket" "" = ""
  · have hgate : ∀ s : ReconcileState, (if getD m "bucket" "" ≠ "" then
        ensure_bucket store (getD m "bucket" "") (getD m "path" "") (clearStatus s)
      else (true, clearStatus s)).1 = true := by
      intro s
      rw [if_neg (by simp [hcb])]
    rw [reconcile_unfold_proceed m store requests st hm (hgate st),
      reconcile_unfold_proceed m store requests st' hm (hgate st')]
    rw [if_neg (by simp [hcb]), if_neg (by simp [hcb])]
    rw [handle_statUnit, handle_statUnit, loop_statUnit, loop_statUnit,
      comp_clear_statUnit, comp_clear_statUnit]
    obtain ⟨e1, e2⟩ := loop_mi_indep store m (getD m "bucket" "") (getD m "path" "")
      requests [] [] (clearStatus st) (clearStatus st')
    rw [e1, e2]
  · by_cases hfail : (ensure_bucket store (getD m "bucket" "") (getD m "path" "")
        (clearStatus st)).1 = false
    · have hfail' : (ensure_bucket store (getD m "bucket" "") (getD m "path" "")
          (clearStatus st')).1 = false := by
        rw [ensure_fst_indep store _ _ (clearStatus st') (clearStatus st)]
        exact hfail
      rw [reconcile_unfold_config_fail m store requests st hm hcb hfail,
        reconcile_unfold_config_fail m store requests st' hm hcb hfail']
      rw [handle_statUnit, handle_statUnit, ensure_statUnit, ensure_statUnit,
        comp_clear_statUnit, comp_clear_statUnit]
    · have htrue : (ensure_bucket store (getD m "bucket" "") (getD m "path" "")
          (clearStatus st)).1 = true := by
        cases h : (ensure_bucket store (getD m "bucket" "") (getD m "path" "")
          (clearStatus st)).1
        · exact absurd h hfail
        · rfl
      have htrue' : (ensure_bucket store (getD m "bucket" "") (getD m "path" "")
          (clearStatus st')).1 = true := by
        rw [ensure_fst_indep store _ _ (clearStatus st') (clearStatus st)]
        exact htrue
      have hgate : (if getD m "bucket" "" ≠ "" then
          ensure_bucket store (getD m "bucket" "") (getD m "path" "") (clearStatus st)
        else (true, clearStatus st)).1 = true := by
        rw [if_pos hcb]; exact htrue
      have hgate' : (if getD m "bucket" "" ≠ "" then
          ensure_bucket store (getD m "bucket" "") (getD m "path" "") (clearStatus st')
        else (true, clearStatus st')).1 = true := by
        rw [if_pos hcb]; exact htrue'
      rw [reconcile_unfold_proceed m store requests st hm hgate,
        reconcile_unfold_proceed m store requests st' hm hgate']
      rw [if_pos hcb, if_pos hcb]
      rw [handle_statUnit, handle_statUnit, loop_statUnit, loop_statUnit,
        ensure_statUnit, ensure_statUnit, comp_clear_statUnit, comp_clear_statUnit]
      obtain ⟨e1, e2⟩ := loop_mi_indep store m (getD m "bucket" "") (getD m "path" "")
        requests [] []
        (ensure_bucket store (getD m "bucket" "") (getD m "path" "") (clearStatus st)).2
        (ensure_bucket store (getD m "bucket" "") (getD m "path" "") (clearStatus st')).2
      rw [e1, e2]

/-- C10: a reconcile pass that proceeds past its guard (leader with a
resolved, non-empty connection configuration) first clears all previously
recorded provider-component statuses in both scopes, so the provider
statuses recorded after the pass are a function of the pass inputs alone —
whatever statuses were recorded before the pass (here: any two initial
states), the resulting provider statuses are identical, and stale bucket
statuses never persist. -/
theorem claim_c10_status_reset (m : ConnInfo) (store : S3Store)
    (requests : List (Nat × String × String)) (st st' : ReconcileState) (hm : ¬m = []) :
    componentStatuses (reconcile_buckets true (some m) store requests st).statApp =
      componentStatuses (reconcile_buckets true (some m) store requests st').statApp ∧
    componentStatuses (reconcile_buckets true (some m) store requests st).statUnit =
      componentStatuses (reconcile_buckets true (some m) store requests st').statUnit :=
  ⟨comp_reconcile_indep_statApp m store requests st st' hm,
   comp_reconcile_indep_statUnit m store requests st st' hm⟩

/-- Witness for C10 at a concrete input: a stale provider status recorded
before the pass does not survive it. -/
theorem claim_c10_witness :
    (¬([("access-key", "a"), ("secret-key", "s")] : ConnInfo) = []) ∧
    componentStatuses (reconcile_buckets true
        (some [("access-key", "a"), ("secret-key", "s")])
        ⟨fun _ _ => true, fun _ => true, fun _ _ => true⟩ []
        { statApp := [(providerComponent, bucket_unavailable ["stale"])],
          statUnit := [(providerComponent, bucket_unavailable ["stale"])] }).statApp =
      componentStatuses (reconcile_buckets true
        (some [("access-key", "a"), ("secret-key", "s")])
        ⟨fun _ _ => true, fun _ => true, fun _ _ => true⟩ [] {}).statApp ∧
    componentStatuses (reconcile_buckets true
        (some [("access-key", "a"), ("secret-key", "s")])
        ⟨fun _ _ => true, fun _ => true, fun _ _ => true⟩ []
        { statApp := [(providerComponent, bucket_unavailable ["stale"])],
          statUnit := [(providerComponent, bucket_unavailable ["stale"])] }).statUnit =
      componentStatuses (reconcile_buckets true
        (some [("access-key", "a"), ("secret-key", "s")])
        ⟨fun _ _ => true, fun _ => true, fun _ _ => true⟩ [] {}).statUnit :=
  ⟨by decide,
   (claim_c10_status_reset [("access-key", "a"), ("secret-key", "s")]
     ⟨fun _ _ => true, fun _ => true, fun _ _ => true⟩ []
     { statApp := [(providerComponent, bucket_unavailable ["stale"])],
       statUnit := [(providerComponent, bucket_unavailable ["stale"])] } {}
     (by decide)).1,
   (claim_c10_status_reset [("access-key", "a"), ("secret-key", "s")]
     ⟨fun _ _ => true, fun _ => true, fun _ _ => true⟩ []
     { statApp := [(providerComponent, bucket_unavailable ["stale"])],
       statUnit := [(providerComponent, bucket_unavailable ["stale"])] } {}
     (by decide)).2⟩

lemma loop_cons_publish (store : S3Store) (m : ConnInfo) (cp : String)
    (rid : Nat) (rb rp : String) (rest : List (Nat × String × String))
    (missing invalid : List String) (st : ReconcileState)
    (h1 : rb ≠ "") (h2 : bucketRegexAccept rb = true)
    (h3 : (ensure_bucket store rb (resolvePath cp rp) st).1 = true) :
    reconcileRelations store m "" cp ((rid, rb, rp) :: rest) missing invalid st =
      reconcileRelations store m "" cp rest missing invalid
        { (ensure_bucket store rb (resolvePath cp rp) st).2 with published :=
            (ensure_bucket store rb (resolvePath cp rp) st).2.published ++
              [(rid, setKey (setKey m "path" (resolvePath cp rp)) "bucket" rb)] } := by
  simp only [reconcileRelations]
  rw [if_pos ⟨trivial, h1⟩, if_neg (by simp [h2]), if_neg (by simp [h3])]

lemma loop_cons_missing (store : S3Store) (m : ConnInfo) (cp : String)
    (rid : Nat) (rb rp : String) (rest : List (Nat × String × String))
    (missing invalid : List String) (st : ReconcileState)
    (h1 : rb ≠ "") (h2 : bucketRegexAccept rb = true)
    (h3 : (ensure_bucket store rb (resolvePath cp rp) st).1 = false)
    (h4 : missing.contains rb = false) :
    reconcileRelations store m "" cp ((rid, rb, rp) :: rest) missing invalid st =
      reconcileRelations store m "" cp rest (missing ++ [rb]) invalid
        (ensure_bucket store rb (resolvePath cp rp) st).2 := by
  simp only [reconcileRelations]
  rw [if_pos ⟨trivial, h1⟩, if_neg (by simp [h2]), if_pos ⟨h3, h4⟩]

lemma loop_cons_invalid (store : S3Store) (m : ConnInfo) (cp : String)
    (rid : Nat) (rb rp : String) (rest : List (Nat × String × String))
    (missing invalid : List String) (st : ReconcileState)
    (h1 : rb ≠ "") (h2 : bucketRegexAccept rb = false)
    (h3 : invalid.contains rb = false) :
    reconcileRelations store m "" cp ((rid, rb, rp) :: rest) missing invalid st =
      reconcileRelations store m "" cp rest missing (invalid ++ [rb]) st := by
  simp only [reconcileRelations]
  rw [if_pos ⟨trivial, h1⟩, if_pos ⟨h2, h3⟩]

lemma loop_nil (store : S3Store) (m : ConnInfo) (cb cp : String)
    (missing invalid : List String) (st : ReconcileState) :
    reconcileRelations store m cb cp [] missing invalid st = (missing, invalid, st) := rfl

/-- C2: with `cfg.bucket` unset and two consumers requesting distinct valid
buckets, if ensuring the first consumer's bucket fails while the second's
succeeds, the first consumer gets no new payload and its bucket is recorded
unavailable, while the second consumer's payload is still published. -/
theorem claim_c2_consumer_independence
    (m : ConnInfo) (store : S3Store) (st : ReconcileState)
    (r1 r2 : Nat) (b1 p1 b2 p2 : String)
    (hm : ¬m = []) (hcb : getD m "bucket" "" = "")
    (hrne : r1 ≠ r2) (_hbne : b1 ≠ b2) (hb1 : b1 ≠ "") (hb2 : b2 ≠ "")
    (ha1 : bucketRegexAccept b1 = true) (ha2 : bucketRegexAccept b2 = true)
    (hfail0 : store.exists0 b1 (resolvePath (getD m "path" "") p1) = false)
    (hfail1 : store.createOk b1 = false ∨
      store.existsAfterCreate b1 (resolvePath (getD m "path" "") p1) = false)
    (hok : store.exists0 b2 (resolvePath (getD m "path" "") p2) = true ∨
      (store.createOk b2 = true ∧
        store.existsAfterCreate b2 (resolvePath (getD m "path" "") p2) = true)) :
    (reconcile_buckets true (some m) store [(r1, b1, p1), (r2, b2, p2)] st).published =
      st.published ++
        [(r2, setKey (setKey m "path" (resolvePath (getD m "path" "") p2)) "bucket" b2)] ∧
    (∀ pay, (r1, pay) ∈
        (reconcile_buckets true (some m) store [(r1, b1, p1), (r2, b2, p2)] st).published →
      (r1, pay) ∈ st.published) ∧
    componentStatuses
        (reconcile_buckets true (some m) store [(r1, b1, p1), (r2, b2, p2)] st).statApp =
      [bucket_unavailable [b1]] ∧
    componentStatuses
        (reconcile_buckets true (some m) store [(r1, b1, p1), (r2, b2, p2)] st).statUnit =
      [bucket_unavailable [b1]] := by
  have hgate : (if getD m "bucket" "" ≠ "" then
      ensure_bucket store (getD m "bucket" "") (getD m "path" "") (clearStatus st)
    else (true, clearStatus st)).1 = true := by
    rw [if_neg (by simp [hcb])]
  rw [reconcile_unfold_proceed m store [(r1, b1, p1), (r2, b2, p2)] st hm hgate]
  rw [if_neg (by simp [hcb])]
  rw [hcb]
  rw [loop_cons_missing store m (getD m "path" "") r1 b1 p1 _ [] [] (clearStatus st)
    hb1 ha1 (ensure_fst_false store b1 _ _ hfail0 hfail1) rfl]
  simp only [List.nil_append]
  rw [loop_cons_publish store m (getD m "path" "") r2 b2 p2 [] [b1] [] _
    hb2 ha2 (ensure_fst_true store b2 _ _ hok)]
  rw [loop_nil]
  refine ⟨?_, ?_, ?_, ?_⟩
  · dsimp only
    rw [handle_published]
    dsimp only
    rw [ensure_published, ensure_published, clear_published]
  · intro pay hmem
    dsimp only at hmem
    rw [handle_published] at hmem
    dsimp only at hmem
    rw [ensure_published, ensure_published, clear_published] at hmem
    rcases List.mem_append.mp hmem with h | h
    · exact h
    · simp at h
      exact absurd h.1 hrne
  · dsimp only
    rw [handle_statApp]
    dsimp only
    rw [ensure_statApp, ensure_statApp, comp_clear_statApp]
    simp [handleAdditions]
  · dsimp only
    rw [handle_statUnit]
    dsimp only
    rw [ensure_statUnit, ensure_statUnit, comp_clear_statUnit]
    simp [handleAdditions]

/-- Witness for C2 at a concrete input: consumer 1 requests `aaa` (creation
fails), consumer 2 requests `bbb` (already exists). -/
theorem claim_c2_witness :
    (¬([("access-key", "a"), ("secret-key", "s")] : ConnInfo) = [] ∧
     getD [("access-key", "a"), ("secret-key", "s")] "bucket" "" = "" ∧
     (1 : Nat) ≠ 2 ∧ ("aaa" : String) ≠ "bbb" ∧
     bucketRegexAccept "aaa" = true ∧ bucketRegexAccept "bbb" = true) ∧
    ((reconcile_buckets true (some [("access-key", "a"), ("secret-key", "s")])
        ⟨fun n _ => n == "bbb", fun _ => false, fun _ _ => false⟩
        [(1, "aaa", "p1"), (2, "bbb", "p2")] {}).published =
      ReconcileState.published {} ++
        [(2, setKey (setKey [("access-key", "a"), ("secret-key", "s")] "path"
          (resolvePath (getD [("access-key", "a"), ("secret-key", "s")] "path" "") "p2"))
          "bucket" "bbb")] ∧
     (∀ pay, (1, pay) ∈
        (reconcile_buckets true (some [("access-key", "a"), ("secret-key", "s")])
          ⟨fun n _ => n == "bbb", fun _ => false, fun _ _ => false⟩
          [(1, "aaa", "p1"), (2, "bbb", "p2")] {}).published →
        (1, pay) ∈ ReconcileState.published {}) ∧
     componentStatuses (reconcile_buckets true
        (some [("access-key", "a"), ("secret-key", "s")])
        ⟨fun n _ => n == "bbb", fun _ => false, fun _ _ => false⟩
        [(1, "aaa", "p1"), (2, "bbb", "p2")] {}).statApp =
      [bucket_unavailable ["aaa"]] ∧
     componentStatuses (reconcile_buckets true
        (some [("access-key", "a"), ("secret-key", "s")])
        ⟨fun n _ => n == "bbb", fun _ => false, fun _ _ => false⟩
        [(1, "aaa", "p1"), (2, "bbb", "p2")] {}).statUnit =
      [bucket_unavailable ["aaa"]]) :=
  ⟨⟨by decide, by decide, by decide, by decide, by decide, by decide⟩,
   claim_c2_consumer_independence [("access-key", "a"), ("secret-key", "s")]
     ⟨fun n _ => n == "bbb", fun _ => false, fun _ _ => false⟩ {}
     1 2 "aaa" "p1" "bbb" "p2"
     (by decide) (by decide) (by decide) (by decide) (by decide) (by decide)
     (by decide) (by decide) rfl (Or.inl rfl) (Or.inl rfl)⟩

lemma loop_publish_member (store : S3Store) (m : ConnInfo) (cp : String) :
    ∀ (reqs : List (Nat × String × String)) (rid : Nat) (rb rp : String)
      (missing invalid : List String) (st : ReconcileState),
    (rid, rb, rp) ∈ reqs → rb ≠ "" → bucketRegexAccept rb = true →
    (store.exists0 rb (resolvePath cp rp) = true ∨
      (store.createOk rb = true ∧ store.existsAfterCreate rb (resolvePath cp rp) = true)) →
    (rid, setKey (setKey m "path" (resolvePath cp rp)) "bucket" rb) ∈
      (reconcileRelations store m "" cp reqs missing invalid st).2.2.published := by
  intro reqs
  induction reqs with
  | nil => intro rid rb rp missing invalid st hmem _ _ _; exact absurd hmem (List.not_mem_nil _)
  | cons head rest ih =>
    obtain ⟨hid, hbk, hpt⟩ := head
    intro rid rb rp missing invalid st hmem hrb hacc hok
    rcases List.mem_cons.mp hmem with heq | hrest
    · injection heq with e1 e2
      injection e2 with e3 e4
      subst e1
      subst e3
      subst e4
      rw [loop_cons_publish store m cp rid rb rp rest missing invalid st hrb hacc
        (ensure_fst_true store rb (resolvePath cp rp) st hok)]
      obtain ⟨tail, ht⟩ := loop_published_extend store m "" cp rest missing invalid _
      rw [ht]
      apply List.mem_append_left
      show _ ∈ (ensure_bucket store rb (resolvePath cp rp) st).2.published ++ _
      exact List.mem_append_right _ (List.mem_singleton.mpr rfl)
    · simp only [reconcileRelations]
      split
      · split
        · exact ih rid rb rp _ _ _ hrest hrb hacc hok
        · split
          · exact ih rid rb rp _ _ _ hrest hrb hacc hok
          · exact ih rid rb rp _ _ _ hrest hrb hacc hok
      · exact ih rid rb rp _ _ _ hrest hrb hacc hok

/-- C6 counterexample: `cfg.bucket` is unset but `cfg.path` is set to
`"cfgp"`; the consumer requests the valid bucket `"ccc"` (which exists) with
its own requested path `"ownp"`.  The published payload carries the config
path `"cfgp"`, not the consumer's requested path — refuting the claim that
the published path is always the consumer's own requested path. -/
theorem claim_c6_counterexample :
    getD [("path", "cfgp"), ("access-key", "a"), ("secret-key", "s")] "bucket" "" = "" ∧
    bucketRegexAccept "ccc" = true ∧
    (reconcile_buckets true
        (some [("path", "cfgp"), ("access-key", "a"), ("secret-key", "s")])
        ⟨fun _ _ => true, fun _ => true, fun _ _ => true⟩
        [(1, "ccc", "ownp")] {}).published =
      [(1, [("path", "cfgp"), ("access-key", "a"), ("secret-key", "s"), ("bucket", "ccc")])] ∧
    getD [("path", "cfgp"), ("access-key", "a"), ("secret-key", "s"), ("bucket", "ccc")]
      "path" "" = "cfgp" ∧
    ("cfgp" : String) ≠ "ownp" := by
  refine ⟨by decide, by decide, ?_, by decide, by decide⟩
  decide

/-- C6 (amended): with `cfg.bucket` unset, a consumer whose requested bucket
is valid and successfully ensured is published a payload carrying that
requested bucket and the resolved path — `cfg.path` when set, else the
consumer's own requested path. -/
theorem claim_c6_requested_bucket_published
    (m : ConnInfo) (store : S3Store) (requests : List (Nat × String × String))
    (st : ReconcileState) (rid : Nat) (rb rp : String)
    (hm : ¬m = []) (hcb : getD m "bucket" "" = "")
    (hmem : (rid, rb, rp) ∈ requests) (hrb : rb ≠ "")
    (hacc : bucketRegexAccept rb = true)
    (hok : store.exists0 rb (resolvePath (getD m "path" "") rp) = true ∨
      (store.createOk rb = true ∧
        store.existsAfterCreate rb (resolvePath (getD m "path" "") rp) = true)) :
    ∃ pay, (rid, pay) ∈ (reconcile_buckets true (some m) store requests st).published ∧
      lookupKey "bucket" pay = some rb ∧
      getD pay "path" "" = (if getD m "path" "" ≠ "" then getD m "path" "" else rp) := by
  have hgate : (if getD m "bucket" "" ≠ "" then
      ensure_bucket store (getD m "bucket" "") (getD m "path" "") (clearStatus st)
    else (true, clearStatus st)).1 = true := by
    rw [if_neg (by simp [hcb])]
  rw [reconcile_unfold_proceed m store requests st hm hgate]
  rw [if_neg (by simp [hcb])]
  rw [hcb]
  refine ⟨setKey (setKey m "path" (resolvePath (getD m "path" "") rp)) "bucket" rb,
    ?_, ?_, ?_⟩
  · rw [handle_published]
    exact loop_publish_member store m (getD m "path" "") requests rid rb rp [] []
      (clearStatus st) hmem hrb hacc hok
  · exact setKey_lookup_self ..
  · unfold getD
    rw [setKey_lookup_ne _ _ _ _ (by decide), setKey_lookup_self, resolvePath_eq]
    rfl

/-- Witness for the amended C6 at a concrete input. -/
theorem claim_c6_witness :
    (¬([("access-key", "a"), ("secret-key", "s")] : ConnInfo) = [] ∧
     getD [("access-key", "a"), ("secret-key", "s")] "bucket" "" = "" ∧
     (7, "ccc", "pp") ∈ [(7, "ccc", "pp")] ∧ ("ccc" : String) ≠ "" ∧
     bucketRegexAccept "ccc" = true) ∧
    (∃ pay, (7, pay) ∈ (reconcile_buckets true
        (some [("access-key", "a"), ("secret-key", "s")])
        ⟨fun _ _ => true, fun _ => true, fun _ _ => true⟩
        [(7, "ccc", "pp")] {}).published ∧
      lookupKey "bucket" pay = some "ccc" ∧
      getD pay "path" "" =
        (if getD [("access-key", "a"), ("secret-key", "s")] "path" "" ≠ "" then
          getD [("access-key", "a"), ("secret-key", "s")] "path" ""
        else "pp")) :=
  ⟨⟨by decide, by decide, by decide, by decide, by decide⟩,
   claim_c6_requested_bucket_published [("access-key", "a"), ("secret-key", "s")]
     ⟨fun _ _ => true, fun _ => true, fun _ _ => true⟩ [(7, "ccc", "pp")] {}
     7 "ccc" "pp" (by decide) (by decide) (by decide) (by decide) (by decide)
     (Or.inl rfl)⟩

lemma loop_nodup (store : S3Store) (m : ConnInfo) (cb cp : String) :
    ∀ (reqs : List (Nat × String × String)) (missing invalid : List String)
      (st : ReconcileState), missing.Nodup → invalid.Nodup →
    (reconcileRelations store m cb cp reqs missing invalid st).1.Nodup ∧
    (reconcileRelations store m cb cp reqs missing invalid st).2.1.Nodup := by
  intro reqs
  induction reqs with
  | nil => intro missing invalid st hmn hin; exact ⟨hmn, hin⟩
  | cons head rest ih =>
    intro missing invalid st hmn hin
    obtain ⟨rid, rbucket, rpath⟩ := head
    simp only [reconcileRelations]
    split
    · split
      · rename_i hcond
        refine ih _ _ _ hmn ?_
        have hni : rbucket ∉ invalid := by
          have := hcond.2
          simpa using this
        simpa [List.nodup_append] using ⟨hin, hni⟩
      · split
        · rename_i hcond
          refine ih _ _ _ ?_ hin
          have hnm : rbucket ∉ missing := by
            have := hcond.2
            simpa using this
          simpa [List.nodup_append] using ⟨hmn, hnm⟩
        · exact ih _ _ _ hmn hin
    · exact ih _ _ _ hmn hin

/-- C7 counterexample: two consumers request the invalid names `"B"` then
`"A"`.  The blocked status formats them in first-occurrence order
(`'B', 'A'`), not sorted — so the produced status differs from the one the
as-stated claim (sorted before formatting) requires. -/
theorem claim_c7_counterexample :
    componentStatuses (reconcile_buckets true
        (some [("access-key", "a"), ("secret-key", "s")])
        ⟨fun _ _ => true, fun _ => true, fun _ _ => true⟩
        [(1, "B", ""), (2, "A", "")] {}).statApp =
      [bucket_name_invalid ["B", "A"]] ∧
    bucket_name_invalid ["B", "A"] ≠ bucket_name_invalid ["A", "B"] := by
  exact ⟨by decide, by decide⟩

/-- C7 (amended): the bucket-name lists a reconcile pass formats into its
blocked statuses are the loop's accumulators — each offending name occurs at
most once (first occurrence wins), but the lists are in encounter order, not
sorted; the statuses recorded in both scopes are exactly the ones formatted
from those deduplicated lists (pass determinism is immediate, the pass being
a pure function of its inputs). -/
theorem claim_c7_dedup_not_sorted
    (m : ConnInfo) (store : S3Store) (requests : List (Nat × String × String))
    (st : ReconcileState) (hm : ¬m = []) (hcb : getD m "bucket" "" = "") :
    (reconcileRelations store m "" (getD m "path" "") requests [] []
      (clearStatus st)).1.Nodup ∧
    (reconcileRelations store m "" (getD m "path" "") requests [] []
      (clearStatus st)).2.1.Nodup ∧
    componentStatuses (reconcile_buckets true (some m) store requests st).statApp =
      handleAdditions
        (reconcileRelations store m "" (getD m "path" "") requests [] []
          (clearStatus st)).1
        (reconcileRelations store m "" (getD m "path" "") requests [] []
          (clearStatus st)).2.1 ∧
    componentStatuses (reconcile_buckets true (some m) store requests st).statUnit =
      handleAdditions
        (reconcileRelations store m "" (getD m "path" "") requests [] []
          (clearStatus st)).1
        (reconcileRelations store m "" (getD m "path" "") requests [] []
          (clearStatus st)).2.1 := by
  have hgate : (if getD m "bucket" "" ≠ "" then
      ensure_bucket store (getD m "bucket" "") (getD m "path" "") (clearStatus st)
    else (true, clearStatus st)).1 = true := by
    rw [if_neg (by simp [hcb])]
  obtain ⟨hn1, hn2⟩ := loop_nodup store m "" (getD m "path" "") requests [] []
    (clearStatus st) List.nodup_nil List.nodup_nil
  refine ⟨hn1, hn2, ?_, ?_⟩
  · rw [reconcile_unfold_proceed m store requests st hm hgate]
    rw [if_neg (by simp [hcb])]
    rw [hcb]
    rw [handle_statApp, loop_statApp, comp_clear_statApp]
    rfl
  · rw [reconcile_unfold_proceed m store requests st hm hgate]
    rw [if_neg (by simp [hcb])]
    rw [hcb]
    rw [handle_statUnit, loop_statUnit, comp_clear_statUnit]
    rfl

/-- Witness for the amended C7 at a concrete input. -/
theorem claim_c7_witness :
    (¬([("access-key", "a"), ("secret-key", "s")] : ConnInfo) = [] ∧
     getD [("access-key", "a"), ("secret-key", "s")] "bucket" "" = "") ∧
    ((reconcileRelations ⟨fun _ _ => true, fun _ => true, fun _ _ => true⟩
        [("access-key", "a"), ("secret-key", "s")] ""
        (getD [("access-key", "a"), ("secret-key", "s")] "path" "")
        [(1, "B", ""), (2, "A", ""), (3, "B", "")] [] []
        (clearStatus {})).1.Nodup ∧
     (reconcileRelations ⟨fun _ _ => true, fun _ => true, fun _ _ => true⟩
        [("access-key", "a"), ("secret-key", "s")] ""
        (getD [("access-key", "a"), ("secret-key", "s")] "path" "")
        [(1, "B", ""), (2, "A", ""), (3, "B", "")] [] []
        (clearStatus {})).2.1.Nodup ∧
     componentStatuses (reconcile_buckets true
        (some [("access-key", "a"), ("secret-key", "s")])
        ⟨fun _ _ => true, fun _ => true, fun _ _ => true⟩
        [(1, "B", ""), (2, "A", ""), (3, "B", "")] {}).statApp =
      handleAdditions
        (reconcileRelations ⟨fun _ _ => true, fun _ => true, fun _ _ => true⟩
          [("access-key", "a"), ("secret-key", "s")] ""
          (getD [("access-key", "a"), ("secret-key", "s")] "path" "")
          [(1, "B", ""), (2, "A", ""), (3, "B", "")] [] [] (clearStatus {})).1
        (reconcileRelations ⟨fun _ _ => true, fun _ => true, fun _ _ => true⟩
          [("access-key", "a"), ("secret-key", "s")] ""
          (getD [("access-key", "a"), ("secret-key", "s")] "path" "")
          [(1, "B", ""), (2, "A", ""), (3, "B", "")] [] [] (clearStatus {})).2.1 ∧
     componentStatuses (reconcile_buckets true
        (some [("access-key", "a"), ("secret-key", "s")])
        ⟨fun _ _ => true, fun _ => true, fun _ _ => true⟩
        [(1, "B", ""), (2, "A", ""), (3, "B", "")] {}).statUnit =
      handleAdditions
        (reconcileRelations ⟨fun _ _ => true, fun _ => true, fun _ _ => true⟩
          [("access-key", "a"), ("secret-key", "s")] ""
          (getD [("access-key", "a"), ("secret-key", "s")] "path" "")
          [(1, "B", ""), (2, "A", ""), (3, "B", "")] [] [] (clearStatus {})).1
        (reconcileRelations ⟨fun _ _ => true, fun _ => true, fun _ _ => true⟩
          [("access-key", "a"), ("secret-key", "s")] ""
          (getD [("access-key", "a"), ("secret-key", "s")] "path" "")
          [(1, "B", ""), (2, "A", ""), (3, "B", "")] [] [] (clearStatus {})).2.1) :=
  ⟨⟨by decide, by decide⟩,
   claim_c7_dedup_not_sorted [("access-key", "a"), ("secret-key", "s")]
     ⟨fun _ _ => true, fun _ => true, fun _ _ => true⟩
     [(1, "B", ""), (2, "A", ""), (3, "B", "")] {} (by decide) (by decide)⟩

lemma decode_notGranted (sid msg : String)
    (h : containsSubstr msg "permission denied" = true) :
    decode_secret_key sid (.modelError msg) = .error (.notGranted sid) := by
  simp [decode_secret_key, h]

lemma gcs_decode_notGranted (sid msg : String)
    (h : containsSubstr msg "permission denied" = true) :
    gcs_decode_secret_key sid (.modelError msg) = .error (.notGranted sid) := by
  simp [gcs_decode_secret_key, h]

lemma runRetry_allNotGranted {α : Type} (wait : Nat) (f : Nat → Except SecretError α)
    (sid : String) (h : ∀ i, f i = .error (.notGranted sid)) :
    ∀ (n attempt : Nat), runRetry wait f attempt (n + 1) =
      (.error (.notGranted sid), attempt + n, List.replicate n wait) := by
  intro n
  induction n with
  | zero =>
    intro attempt
    simp [runRetry, h attempt, isNotGranted]
  | succ k ih =>
    intro attempt
    show runRetry wait f attempt (k + 1 + 1) = _
    rw [runRetry, h attempt]
    dsimp only
    rw [if_pos ⟨rfl, Nat.succ_ne_zero k⟩]
    rw [ih (attempt + 1)]
    simp [List.replicate_succ]
    omega

lemma runRetry_stop {α : Type} (wait : Nat) (f : Nat → Except SecretError α)
    (attempt : Nat) (e : SecretError)
    (hf : f attempt = .error e) (hng : isNotGranted e = false) :
    ∀ n, runRetry wait f attempt n = (.error e, attempt, []) := by
  intro n
  cases n with
  | zero => simp [runRetry, hf]
  | succ k =>
    rw [runRetry, hf]
    dsimp only
    rw [if_neg (by simp [hng])]

/-- C4: when every secret fetch fails with the permission-denied (NotGranted)
condition, `decode_secret_key_with_retry` makes exactly 3 attempts with a
fixed 5-second sleep between consecutive attempts before surfacing
`SecretNotGrantedError` — in both the S3 and the GCS backends; any other
decode error surfaces after exactly one attempt with no sleeps. -/
theorem claim_c4_retry_policy
    (sid : String) (fetch gfetch : Nat → FetchOutcome) (e : SecretError)
    (hng : ∀ i, ∃ msg, fetch i = .modelError msg ∧
      containsSubstr msg "permission denied" = true)
    (hother : decode_secret_key sid (gfetch 1) = .error e)
    (hne : isNotGranted e = false) :
    decode_secret_key_with_retry sid fetch = (.error (.notGranted sid), 3, [5, 5]) ∧
    gcs_decode_secret_key_with_retry sid fetch = (.error (.notGranted sid), 3, [5, 5]) ∧
    decode_secret_key_with_retry sid gfetch = (.error e, 1, []) := by
  refine ⟨?_, ?_, ?_⟩
  · have hg : ∀ i, decode_secret_key sid (fetch i) = .error (.notGranted sid) := by
      intro i
      obtain ⟨msg, h1, h2⟩ := hng i
      rw [h1]
      exact decode_notGranted sid msg h2
    exact runRetry_allNotGranted 5 _ sid hg 2 1
  · have hg : ∀ i, gcs_decode_secret_key sid (fetch i) = .error (.notGranted sid) := by
      intro i
      obtain ⟨msg, h1, h2⟩ := hng i
      rw [h1]
      exact gcs_decode_notGranted sid msg h2
    exact runRetry_allNotGranted 5 _ sid hg 2 1
  · exact runRetry_stop 5 _ 1 e hother hne 3

/-- Witness for C4 at concrete inputs: an always-permission-denied store and
a store whose secret does not exist. -/
theorem claim_c4_witness :
    ((∀ i : Nat, ∃ msg, (fun _ : Nat => FetchOutcome.modelError "ERROR permission denied") i =
        .modelError msg ∧ containsSubstr msg "permission denied" = true) ∧
     decode_secret_key "sid" ((fun _ : Nat => FetchOutcome.secretNotFound) 1) =
       .error (.doesNotExist "sid") ∧
     isNotGranted (.doesNotExist "sid") = false) ∧
    (decode_secret_key_with_retry "sid"
        (fun _ => FetchOutcome.modelError "ERROR permission denied") =
      (.error (.notGranted "sid"), 3, [5, 5]) ∧
     gcs_decode_secret_key_with_retry "sid"
        (fun _ => FetchOutcome.modelError "ERROR permission denied") =
      (.error (.notGranted "sid"), 3, [5, 5]) ∧
     decode_secret_key_with_retry "sid" (fun _ => FetchOutcome.secretNotFound) =
      (.error (.doesNotExist "sid"), 1, [])) :=
  ⟨⟨fun _ => ⟨"ERROR permission denied", rfl, by decide⟩, rfl, by decide⟩,
   claim_c4_retry_policy "sid"
     (fun _ => FetchOutcome.modelError "ERROR permission denied")
     (fun _ => FetchOutcome.secretNotFound) (.doesNotExist "sid")
     (fun _ => ⟨"ERROR permission denied", rfl, by decide⟩) rfl (by decide)⟩

/-- C5: secret resolution is total over the four-error taxonomy — for every
fetch outcome it either returns the required key material or yields exactly
one of `doesNotExist`, `fieldMissing`, `notGranted`, `decodeError` (with a
non-empty field list in the `fieldMissing` case); and on fetched content the
result is `fieldMissing` carrying exactly the required fields that are
absent or empty (`access-key` and `secret-key` for S3, `secret-key` alone
for GCS, in required-field order), else the key material itself. -/
theorem claim_c5_secret_error_taxonomy (sid : String) (o : FetchOutcome)
    (content : ConnInfo) :
    (decode_secret_key sid (.ok content) =
      if specMissingFields ["access-key", "secret-key"] content = [] then
        .ok (getD content "access-key" "", getD content "secret-key" "")
      else .error (.fieldMissing sid
        (specMissingFields ["access-key", "secret-key"] content))) ∧
    (gcs_decode_secret_key sid (.ok content) =
      if specMissingFields ["secret-key"] content = [] then
        .ok (getD content "secret-key" "")
      else .error (.fieldMissing sid (specMissingFields ["secret-key"] content))) ∧
    ((∃ r, decode_secret_key sid o = .ok r) ∨
     decode_secret_key sid o = .error (.doesNotExist sid) ∨
     (∃ fs, decode_secret_key sid o = .error (.fieldMissing sid fs) ∧ fs ≠ []) ∨
     decode_secret_key sid o = .error (.notGranted sid) ∨
     decode_secret_key sid o = .error (.decodeError sid)) ∧
    ((∃ r, gcs_decode_secret_key sid o = .ok r) ∨
     gcs_decode_secret_key sid o = .error (.doesNotExist sid) ∨
     (∃ fs, gcs_decode_secret_key sid o = .error (.fieldMissing sid fs) ∧ fs ≠ []) ∨
     gcs_decode_secret_key sid o = .error (.notGranted sid) ∨
     gcs_decode_secret_key sid o = .error (.decodeError sid)) := by
  refine ⟨?_, ?_, ?_, ?_⟩
  · by_cases h1 : getD content "access-key" "" = "" <;>
      by_cases h2 : getD content "secret-key" "" = "" <;>
      simp [decode_secret_key, specMissingFields, h1, h2]
  · by_cases h2 : getD content "secret-key" "" = "" <;>
      simp [gcs_decode_secret_key, specMissingFields, h2]
  · cases o with
    | ok c =>
      by_cases h1 : getD c "access-key" "" = "" <;> by_cases h2 : getD c "secret-key" "" = ""
      · exact Or.inr (Or.inr (Or.inl ⟨["access-key", "secret-key"],
          by simp [decode_secret_key, h1, h2], by decide⟩))
      · exact Or.inr (Or.inr (Or.inl ⟨["access-key"],
          by simp [decode_secret_key, h1, h2], by decide⟩))
      · exact Or.inr (Or.inr (Or.inl ⟨["secret-key"],
          by simp [decode_secret_key, h1, h2], by decide⟩))
      · exact Or.inl ⟨(getD c "access-key" "", getD c "secret-key" ""),
          by simp [decode_secret_key, h1, h2]⟩
    | secretNotFound => exact Or.inr (Or.inl rfl)
    | valueError => exact Or.inr (Or.inl rfl)
    | modelError msg =>
      by_cases h : containsSubstr msg "permission denied" = true
      · exact Or.inr (Or.inr (Or.inr (Or.inl (by simp [decode_secret_key, h]))))
      · refine Or.inr (Or.inr (Or.inr (Or.inr ?_)))
        simp only [decode_secret_key]
        rw [if_neg (by simpa using h)]
    | otherError => exact Or.inr (Or.inr (Or.inr (Or.inr rfl)))
  · cases o with
    | ok c =>
      by_cases h2 : getD c "secret-key" "" = ""
      · exact Or.inr (Or.inr (Or.inl ⟨["secret-key"],
          by simp [gcs_decode_secret_key, h2], by decide⟩))
      · exact Or.inl ⟨getD c "secret-key" "", by simp [gcs_decode_secret_key, h2]⟩
    | secretNotFound => exact Or.inr (Or.inl rfl)
    | valueError => exact Or.inr (Or.inl rfl)
    | modelError msg =>
      by_cases h : containsSubstr msg "permission denied" = true
      · exact Or.inr (Or.inr (Or.inr (Or.inl (by simp [gcs_decode_secret_key, h]))))
      · refine Or.inr (Or.inr (Or.inr (Or.inr ?_)))
        simp only [gcs_decode_secret_key]
        rw [if_neg (by simpa using h)]
    | otherError => exact Or.inr (Or.inr (Or.inr (Or.inr rfl)))

lemma string_toList_eq_nil (s : String) : s.toList = [] ↔ s = "" := by
  constructor
  · intro h
    cases s with
    | mk data =>
      simp only [String.toList] at h
      subst h
      rfl
  · intro h
    subst h
    rfl

/-- C9: the proxy-bypass predicate returns `true` exactly when the no-proxy
list is non-empty, a non-empty hostname was parsed from the endpoint, and
some (stripped, lower-cased, non-blank) entry matches the host — exact
equality, dotted-entry suffix, `.entry` suffix, or CIDR membership (where
`ipInNet` returns `none` on a malformed entry/host, which never makes the
decision fail, it just skips that entry). -/
theorem claim_c9_proxy_bypass (ipInNet : List Char → List Char → Option Bool)
    (hostOpt : Option (List Char)) (npl : String) :
    skip_proxy ipInNet hostOpt npl = true ↔
      (npl ≠ "" ∧ ∃ host, hostOpt = some host ∧ host ≠ [] ∧
        ∃ entry ∈ noProxyEntries npl,
          (host = entry ∨
           (startsWithList entry ['.'] = true ∧ endsWithChars host entry = true) ∨
           endsWithChars host ('.' :: entry) = true ∨
           ipInNet host entry = some true)) := by
  unfold skip_proxy
  by_cases hn : npl.toList = []
  · rw [if_pos hn]
    simp [(string_toList_eq_nil npl).mp hn]
  · rw [if_neg hn]
    have hne : ¬npl = "" := fun h => hn (by simp [h])
    cases hostOpt with
    | none => simp
    | some host =>
      dsimp only
      by_cases hh : host = []
      · rw [if_pos hh]
        simp [hh]
      · rw [if_neg hh]
        rw [List.any_eq_true]
        constructor
        · rintro ⟨entry, hmem, hpred⟩
          refine ⟨hne, host, rfl, hh, entry, hmem, ?_⟩
          simp only [Bool.or_eq_true, Bool.and_eq_true, decide_eq_true_eq,
            beq_iff_eq] at hpred
          tauto
        · rintro ⟨_, host', heq, _, entry, hmem, hcases⟩
          injection heq with heq
          subst heq
          refine ⟨entry, hmem, ?_⟩
          simp only [Bool.or_eq_true, Bool.and_eq_true, decide_eq_true_eq,
            beq_iff_eq]
          tauto

lemma isBucketChar_of_alnum (c : Char) (h : isLowerAlnum c = true) :
    isBucketChar c = true := by
  simp [isBucketChar, h]

lemma bucketChar_ne_newline (c : Char) (h : isBucketChar c = true) : c ≠ '\n' := by
  intro he
  subst he
  simp [isBucketChar, isLowerAlnum] at h

lemma startsWithList_length_le (p : List Char) :
    ∀ xs, startsWithList xs p = true → p.length ≤ xs.length := by
  induction p with
  | nil => intro xs _; simp
  | cons q qs ih =>
    intro xs h
    cases xs with
    | nil => simp [startsWithList] at h
    | cons x xx =>
      simp only [startsWithList, Bool.and_eq_true] at h
      simpa using ih xx h.2

lemma startsWithList_eq_of_length (p : List Char) :
    ∀ xs, startsWithList xs p = true → xs.length = p.length → xs = p := by
  induction p with
  | nil => intro xs _ hl; exact List.length_eq_zero.mp hl
  | cons q qs ih =>
    intro xs h hl
    cases xs with
    | nil => simp [startsWithList] at h
    | cons x xx =>
      simp only [startsWithList, Bool.and_eq_true, decide_eq_true_eq] at h
      rw [h.1, ih xx h.2 (by simpa using hl)]

lemma startsWith_append_single_of_not_mem (c : Char) (p : List Char) (hc : c ∉ p) :
    ∀ ds, startsWithList (ds ++ [c]) p = startsWithList ds p := by
  induction p with
  | nil => intro ds; cases ds <;> rfl
  | cons q qs ih =>
    intro ds
    cases ds with
    | nil =>
      have hcq : ¬c = q := fun h => hc (h ▸ List.mem_cons_self q qs)
      simp [startsWithList, hcq]
    | cons d dd =>
      simp only [List.cons_append, startsWithList, List.append_eq]
      rw [ih (fun h => hc (List.mem_cons_of_mem q h)) dd]

lemma mainShape_mem_bucketChar (cs : List Char) (h : mainShape cs = true) :
    ∀ c ∈ cs, isBucketChar c = true := by
  simp only [mainShape, Bool.and_eq_true, decide_eq_true_eq] at h
  obtain ⟨⟨⟨⟨h3, _⟩, hhead⟩, hlast⟩, hmid⟩ := h
  intro c hc
  cases cs with
  | nil => exact absurd hc (List.not_mem_nil c)
  | cons x xs =>
    rcases List.mem_cons.mp hc with hcx | hcxs
    · subst hcx
      exact isBucketChar_of_alnum c (by simpa using hhead)
    · have hxs : xs ≠ [] := by
        intro he
        subst he
        simp at h3
    
      have hgl : (x :: xs).getLastD ' ' = xs.getLast hxs := by
        rw [List.getLastD_cons, List.getLastD_eq_getLast?,
          List.getLast?_eq_getLast xs hxs]
        rfl
      have hdecomp := List.dropLast_append_getLast hxs
      rw [← hdecomp] at hcxs
      rcases List.mem_append.mp hcxs with hmidmem | hlastmem
      · have hall : (xs.dropLast).all isBucketChar = true := by
          simpa using hmid
        exact List.all_eq_true.mp hall c hmidmem
      · have hcl : c = xs.getLast hxs := List.mem_singleton.mp hlastmem
        subst hcl
        apply isBucketChar_of_alnum
        rw [← hgl]
        exact hlast

lemma startsWithList_head (y : Char) (ys : List Char) :
    ∀ xs, startsWithList xs (y :: ys) = true → xs.head? = some y := by
  intro xs h
  cases xs with
  | nil => simp [startsWithList] at h
  | cons x xx =>
    simp only [startsWithList, Bool.and_eq_true, decide_eq_true_eq] at h
    rw [h.1]
    rfl

lemma mainShape_ne_newline (cs : List Char) (hm : mainShape cs = true) :
    ∀ c ∈ cs, c ≠ '\n' :=
  fun c hc => bucketChar_ne_newline c (mainShape_mem_bucketChar cs hm c hc)

lemma take_all_ne_newline (cs : List Char) (n : Nat) (h : ∀ c ∈ cs, c ≠ '\n') :
    (cs.take n).all (fun c => decide (c ≠ '\n')) = true := by
  rw [List.all_eq_true]
  intro c hc
  exact decide_eq_true_eq.mpr (h c (List.take_subset n cs hc))

lemma alias_len_of_mainShape (cs : List Char) (hm : mainShape cs = true)
    (he : endsWithChars cs ("-s3alias".toList) = true) : 9 ≤ cs.length := by
  unfold endsWithChars at he
  have h8 : 8 ≤ cs.length := by
    have := startsWithList_length_le ("-s3alias".toList.reverse) cs.reverse he
    simpa using this
  rcases Nat.lt_or_ge cs.length 9 with hlt | hge
  · exfalso
    have hlen : cs.reverse.length = ("-s3alias".toList.reverse).length := by
      simp
      omega
    have heq := startsWithList_eq_of_length _ _ he hlen
    have hcs : cs = "-s3alias".toList := by
      have := congrArg List.reverse heq
      simpa using this
    rw [hcs] at hm
    simp [mainShape, isLowerAlnum] at hm
  · exact hge

lemma alias_eq_endsAlias_of_mainShape (cs : List Char) (hm : mainShape cs = true) :
    s3aliasLookahead cs = endsWithChars cs ("-s3alias".toList) := by
  cases he : endsWithChars cs ("-s3alias".toList) with
  | false =>
    unfold s3aliasLookahead
    rw [he]
    simp only [Bool.false_and, Bool.false_or]
    cases he2 : endsWithChars cs ("-s3alias\n".toList) with
    | false => simp
    | true =>
      exfalso
      unfold endsWithChars at he2
      have hrev : ("-s3alias\n".toList).reverse = '\n' :: ("-s3alias".toList).reverse := rfl
      rw [hrev] at he2
      have hhead := startsWithList_head '\n' _ cs.reverse he2
      have hnl : '\n' ∈ cs := by
        have : '\n' ∈ cs.reverse := by
          cases hcr : cs.reverse with
          | nil => rw [hcr] at hhead; simp at hhead
          | cons a l =>
            rw [hcr] at hhead
            injection hhead with ha
            exact ha ▸ List.mem_cons_self a l
        simpa using this
      exact mainShape_ne_newline cs hm '\n' hnl rfl
  | true =>
    unfold s3aliasLookahead
    rw [he]
    have h9 := alias_len_of_mainShape cs hm he
    have htake := take_all_ne_newline cs (cs.length - 8) (mainShape_ne_newline cs hm)
    simp [h9, htake]
    exact Or.inl fun c hc => mainShape_ne_newline cs hm c (List.take_subset _ cs hc)

lemma endsWith_append_newline_alias (ds : List Char) :
    endsWithChars (ds ++ ['\n']) ("-s3alias".toList) = false := by
  unfold endsWithChars
  rw [List.reverse_append]
  have h1 : ("-s3alias".toList).reverse = 's' :: ['a', 'i', 'l', 'a', '3', 's', '-'] := rfl
  rw [h1]
  simp [startsWithList]

lemma endsWith_append_newline_alias2 (ds : List Char) :
    endsWithChars (ds ++ ['\n']) ("-s3alias\n".toList) =
      endsWithChars ds ("-s3alias".toList) := by
  unfold endsWithChars
  rw [List.reverse_append]
  have h1 : ("-s3alias\n".toList).reverse = '\n' :: ("-s3alias".toList).reverse := rfl
  rw [h1]
  simp [startsWithList]

lemma alias_append_newline (ds : List Char) (hm : mainShape ds = true) :
    s3aliasLookahead (ds ++ ['\n']) = endsWithChars ds ("-s3alias".toList) := by
  unfold s3aliasLookahead
  rw [endsWith_append_newline_alias, endsWith_append_newline_alias2]
  simp only [Bool.false_and, Bool.false_or]
  cases he : endsWithChars ds ("-s3alias".toList) with
  | false => simp
  | true =>
    have h9 := alias_len_of_mainShape ds hm he
    have hlen : (10 : Nat) ≤ (ds ++ ['\n']).length := by
      simp only [List.length_append, List.length_singleton]
      omega
    have htk : (ds ++ ['\n']).take ((ds ++ ['\n']).length - 9) =
        ds.take (ds.length - 8) := by
      have hle : ds.length - 8 ≤ ds.length := Nat.sub_le ..
      have hlen2 : (ds ++ ['\n']).length - 9 = ds.length - 8 := by
        simp only [List.length_append, List.length_singleton]
        omega
      rw [hlen2]
      exact List.take_append_of_le_length hle
    rw [htk]
    have htake := take_all_ne_newline ds (ds.length - 8) (mainShape_ne_newline ds hm)
    simp [hlen, htake]
    refine ⟨by omega, ?_⟩
    exact fun c hc => mainShape_ne_newline ds hm c (List.take_subset _ ds hc)

lemma regexAccept_list_eq (cs : List Char) :
    ((!(xnPrefix cs || s3aliasLookahead cs) &&
      (mainShape cs || (decide (cs.getLast? = some '\n') && mainShape cs.dropLast)))
     || decide (cs = []) || decide (cs = ['\n'])) =
    (decide (dropTrailingNewline cs = []) ||
     (mainShape (dropTrailingNewline cs) &&
      !(startsWithList (dropTrailingNewline cs) ("xn--".toList)) &&
      !(endsWithChars (dropTrailingNewline cs) ("-s3alias".toList)))) := by
  by_cases hl : cs.getLast? = some '\n'
  · have hcsne : cs ≠ [] := by
      intro he
      rw [he] at hl
      simp at hl
    have hlast : cs.getLast hcsne = '\n' := by
      have := List.getLast?_eq_getLast cs hcsne
      rw [hl] at this
      exact (Option.some.injEq ..).mp this.symm
    have hds : cs = cs.dropLast ++ ['\n'] := by
      conv_lhs => rw [← List.dropLast_append_getLast hcsne]
      rw [hlast]
    have hd : dropTrailingNewline cs = cs.dropLast := if_pos hl
    rw [hd]
    have hmcs : mainShape cs = false := by
      have h4 : isLowerAlnum (cs.getLast?.getD ' ') = false := by
        rw [hl]
        decide
      simp [mainShape, List.getLastD_eq_getLast?]
      intro _ _ _ hcontra
      simp [h4] at hcontra
    rw [hmcs, hl]
    simp only [decide_True, Bool.true_and, Bool.false_or]
    have hnil : decide (cs = []) = false := decide_eq_false hcsne
    have hsing : decide (cs = ['\n']) = decide (cs.dropLast = []) := by
      apply decide_eq_decide.mpr
      constructor
      · intro he
        rw [he]
        rfl
      · intro he
        rw [hds, he]
        rfl
    rw [hnil, hsing]
    by_cases hm : mainShape cs.dropLast = true
    · have hxn : xnPrefix cs = startsWithList cs.dropLast ("xn--".toList) := by
        unfold xnPrefix
        conv_lhs => rw [hds]
        exact startsWith_append_single_of_not_mem '\n' _ (by decide) _
      have hal : s3aliasLookahead cs = endsWithChars cs.dropLast ("-s3alias".toList) := by
        conv_lhs => rw [hds]
        exact alias_append_newline _ hm
      rw [hxn, hal, hm]
      have hdsne : decide (cs.dropLast = []) = false := by
        apply decide_eq_false
        intro he
        rw [he] at hm
        simp [mainShape] at hm
      rw [hdsne]
      simp [Bool.not_or, Bool.or_comm, Bool.and_comm]
    · have hmf : mainShape cs.dropLast = false := by
        cases h : mainShape cs.dropLast
        · rfl
        · exact absurd h hm
      rw [hmf]
      simp
  · have hd : dropTrailingNewline cs = cs := if_neg hl
    rw [hd]
    have hsing : decide (cs = ['\n']) = false := by
      apply decide_eq_false
      intro he
      rw [he] at hl
      exact hl rfl
    rw [hsing]
    have hldec : decide (cs.getLast? = some '\n') = false := decide_eq_false hl
    rw [hldec]
    simp only [Bool.false_and, Bool.or_false]
    by_cases hm : mainShape cs = true
    · have hal := alias_eq_endsAlias_of_mainShape cs hm
      rw [hal, hm]
      have hnil : decide (cs = []) = false := by
        apply decide_eq_false
        intro he
        rw [he] at hm
        simp [mainShape] at hm
      rw [hnil]
      unfold xnPrefix
      simp [Bool.not_or]
    · have hmf : mainShape cs = false := by
        cases h : mainShape cs
        · rfl
        · exact absurd h hm
      rw [hmf]
      simp

/-- Spec formulation: the GCS bucket grammar as the code enforces it —
3–63 characters, lowercase alnum first and last, and every character in
between drawn from `[a-z0-9.-]` (dots allowed, empty rejected). -/
def specGcsBucketGrammar (s : String) : Prop :=
  3 ≤ s.toList.length ∧ s.toList.length ≤ 63 ∧
  isLowerAlnum (s.toList.headD ' ') = true ∧
  isLowerAlnum (s.toList.getLastD ' ') = true ∧
  ∀ c ∈ (s.toList.drop 1).dropLast, gcsMiddleChar c = true

/-- C8 counterexample: the GCS validator accepts `"a.b"`, which is outside
the claimed hyphen-only grammar, and rejects the empty string, which the
claim says is accepted; the S3 regex, matched with Python `re.match`,
additionally accepts `"abcd\n"` (the `$` anchor matches before a trailing
newline), also outside the claimed grammar. -/
theorem claim_c8_counterexample :
    gcsBucketAccept "a.b" = true ∧ specS3BucketAccept "a.b" = false ∧
    gcsBucketAccept "" = false ∧
    bucketRegexAccept "abcd\n" = true ∧ specS3BucketAccept "abcd\n" = false := by
  refine ⟨by decide, by decide, by decide, by decide, by decide⟩

/-- C8 (amended): the S3 regex accepts a string exactly when, after
discounting a single trailing newline (Python `$` semantics), it is empty or
matches the claimed grammar `^[a-z0-9](?:[a-z0-9-]{1,61})[a-z0-9]$` without
starting with `xn--` or ending with `-s3alias`; the GCS validator accepts a
string exactly when it matches the wider grammar
`^[a-z0-9][a-z0-9.-]{1,61}[a-z0-9]$` (dots also allowed, empty rejected). -/
theorem claim_c8_bucket_grammar (s : String) :
    bucketRegexAccept s = specS3BucketAccept (stripTrailingNewline s) ∧
    (gcsBucketAccept s = true ↔ specGcsBucketGrammar s) := by
  constructor
  · show bucketRegexAccept s = specS3BucketAccept (stripTrailingNewline s)
    unfold bucketRegexAccept specS3BucketAccept stripTrailingNewline
    have ht : (String.mk (dropTrailingNewline s.toList)).toList =
        dropTrailingNewline s.toList := rfl
    rw [ht]
    exact regexAccept_list_eq s.toList
  · unfold gcsBucketAccept specGcsBucketGrammar
    simp [List.all_eq_true]
    tauto
